import Mathlib

/-!
Verification of `technitium_exporter.py` (a Prometheus exporter for the
Technitium DNS server management API).

The development shallowly embeds the source program:

* JSON values (`JVal`) model the Python objects produced by `resp.json()`.
* The Python dynamic operations used by the source (`dict.get`, truthiness,
  `float(...)`, `str(...)`, iteration, `zip`) are modelled by total Lean
  functions returning `Except String _` where the Python operation can raise.
* The outcome of one HTTP round trip (`requests.Session.get` followed by
  `raise_for_status` and `.json()`) is abstracted as an `HttpResult` input:
  either the `get` call raised (transport error / timeout, carrying the
  exception text), or a response arrived with a status code and an optional
  parsed JSON body (`none` models a body that is not valid JSON).
  Per the `requests` library, `raise_for_status` raises exactly for status
  codes in `[400, 600)`.
* `collect` is a Python generator; it is modelled as a function returning the
  list of families yielded before the generator either finished or raised
  (`Gen.err = some msg` records an uncaught exception), together with the
  log lines emitted.
-/

set_option maxRecDepth 4000

/-- JSON values as produced by `resp.json()`. Objects are association lists
(keys assumed distinct, as in every payload of the upstream API); `null`
also stands for Python `None`. -/
inductive JVal where
  | null
  | bool (b : Bool)
  | num (n : Int)
  | str (s : String)
  | arr (elems : List JVal)
  | obj (fields : List (String × JVal))

/-- Key lookup in a JSON object (first match; keys are assumed distinct). -/
def lookupJ : List (String × JVal) → String → Option JVal
  | [], _ => none
  | (k, v) :: rest, key => if k = key then some v else lookupJ rest key

/-- Python `d.get(key, dflt)`: raises `AttributeError` when the receiver is
not a dict. A key explicitly bound to JSON `null` yields Python `None`,
modelled as `JVal.null`. -/
def pyGetD (v : JVal) (key : String) (dflt : JVal) : Except String JVal :=
  match v with
  | .obj kvs => .ok ((lookupJ kvs key).getD dflt)
  | _ => .error "AttributeError: object has no attribute get"

/-- Python truthiness of a JSON-shaped value. -/
def pyTruthy : JVal → Bool
  | .null => false
  | .bool b => b
  | .num n => n != 0
  | .str s => s ≠ ""
  | .arr xs => !xs.isEmpty
  | .obj kvs => !kvs.isEmpty

/-- Python `float(v)` on a JSON-shaped value. Numeric strings are outside
the modelled fragment (no claim exercises them) and are mapped to the
raising case like the other non-numeric shapes. -/
def pyFloatE : JVal → Except String ℚ
  | .num n => .ok (n : ℚ)
  | .bool b => .ok (if b then 1 else 0)
  | _ => .error "TypeError: float() argument error"

/-- Python `str(v)` for the scalar shapes the program applies it to
(`disabled`/`internal` flags and `soaSerial`). Container reprs are outside
the modelled fragment. -/
def pyStr : JVal → String
  | .str s => s
  | .bool true => "True"
  | .bool false => "False"
  | .num n => toString n
  | .null => "None"
  | .arr _ => "<list>"
  | .obj _ => "<dict>"

/-- Python `s.lower()` for the ASCII strings the program lowercases
(`str()` renderings of booleans). -/
def strLower (s : String) : String := String.mk (s.data.map Char.toLower)

/-- Python iteration (`for x in v`, or materialising `zip` arguments):
lists iterate over their elements; iteration of the remaining shapes either
raises in Python or (strings, dicts) leads to a raise at the first use of
the element in every place the program iterates, so they are mapped to the
raising case. -/
def pyIter : JVal → Except String (List JVal)
  | .arr xs => .ok xs
  | _ => .error "TypeError: object is not iterable"

/-- Python `v[0]` as applied to `chart["datasets"][0]`. -/
def pySub0 : JVal → Except String JVal
  | .arr (x :: _) => .ok x
  | _ => .error "TypeError: object is not subscriptable"

/-- Whether a JSON value is an object (a Python dict). -/
def JVal.isObj : JVal → Bool
  | .obj _ => true
  | _ => false

/-- A `for` loop that turns each element into a result, aborting at the
first raised exception (used for every loop of `collect` whose family is
fully built before being yielded). -/
def exceptMap (f : α → Except String β) : List α → Except String (List β)
  | [] => .ok []
  | x :: rest =>
    match f x with
    | .error e => .error e
    | .ok y =>
      match exceptMap f rest with
      | .error e => .error e
      | .ok ys => .ok (y :: ys)

-- ---------------------------------------------------------------------------
-- Token redaction: `error_msg.replace(TECHNITIUM_TOKEN, "REDACTED")`
-- ---------------------------------------------------------------------------

/-- Whether `p` is a leading segment of `s`. -/
def isPre : List Char → List Char → Bool
  | [], _ => true
  | _ :: _, [] => false
  | p :: ps, c :: cs => p == c && isPre ps cs

/-- Whether `pat` occurs as a contiguous run inside `s`. -/
def occurs (pat : List Char) : List Char → Bool
  | [] => pat.isEmpty
  | c :: rest => isPre pat (c :: rest) || occurs pat rest

/-- Python `s.replace(pat, rep)` for nonempty `pat`, written with a skip
counter so the recursion is structural: with `k = 0` the scanner is at a
fresh position; `k > 0` means `k` characters of an already-replaced match
remain to be consumed. At a fresh position, a match emits `rep` and skips
the matched characters (non-overlapping, leftmost, single pass). -/
def replaceSkip (pat rep : List Char) : Nat → List Char → List Char
  | _, [] => []
  | k + 1, _ :: rest => replaceSkip pat rep k rest
  | 0, c :: rest =>
    if isPre pat (c :: rest) && !pat.isEmpty then
      rep ++ replaceSkip pat rep (pat.length - 1) rest
    else
      c :: replaceSkip pat rep 0 rest

/-- Python `s.replace(pat, rep)` on character lists. -/
def replaceAll (pat rep s : List Char) : List Char :=
  replaceSkip pat rep 0 s

/-- The redaction marker the source substitutes for the token. -/
def redactMarker : String := "REDACTED"

/-- Lines 71–73 / 278–280 of the source: sanitize the token out of an
exception message (`if TECHNITIUM_TOKEN and len(TECHNITIUM_TOKEN) > 0`). -/
def sanitize (token msg : String) : String :=
  if token.length > 0 then
    String.mk (replaceAll token.data redactMarker.data msg.data)
  else msg

/-- `occurs` lifted to `String`. -/
def strOccurs (pat s : String) : Bool := occurs pat.data s.data

-- ---------------------------------------------------------------------------
-- The HTTP layer and `_call_api`
-- ---------------------------------------------------------------------------

/-- A response delivered by `session.get` (after redirect handling inside
`requests`): its status code, the text of the `HTTPError` that
`raise_for_status` raises when the code is in `[400, 600)` (the text embeds
the request URL, hence possibly the token), the parsed JSON body (`none`
when the body is not valid JSON), and the text of the `JSONDecodeError`
raised in that case. -/
structure HttpResponse where
  code : Nat
  httpErrText : String
  jsonBody : Option JVal
  jsonErrText : String

/-- Outcome of one `session.get` call. -/
inductive HttpResult where
  | raised (msg : String)
  | got (r : HttpResponse)

/-- Exporter configuration (environment variables, read once at startup). -/
structure Config where
  token : String
  node : String
  serverLabel : String
  statsRange : String
  topLimit : Int

/-- Lines 52–59 of the source: the query parameters actually sent — the
token, the node selector when configured, then the caller's extra
parameters, which on key collision overwrite the defaults in place
(Python `dict.update`). -/
def requestParams (token node : String) (params : List (String × String)) : List (String × String) :=
  let base := [("token", token)] ++ (if node ≠ "" then [("node", node)] else [])
  base.map (fun kv =>
    match params.find? (fun p => p.1 = kv.1) with
    | some p => (kv.1, p.2)
    | none => kv) ++
  params.filter (fun p => base.all (fun kv => kv.1 ≠ p.1))

/-- The body of the `try` block in `_call_api` (lines 62–64): `session.get`,
`raise_for_status`, `resp.json()`; `.error m` models an exception with
message `m` reaching the `except` clause. -/
def tryBody : HttpResult → Except String JVal
  | .raised m => .error m
  | .got r =>
    if 400 ≤ r.code ∧ r.code < 600 then .error r.httpErrText
    else
      match r.jsonBody with
      | none => .error r.jsonErrText
      | some v => .ok v

/-- Python `data.get("status") != "ok"` negated: true exactly when the
`status` field exists and equals the string `"ok"` (Python string equality
against a non-string value is `False`). -/
def statusIsOk (kvs : List (String × JVal)) : Bool :=
  match lookupJ kvs "status" with
  | some (.str s) => s == "ok"
  | _ => false

/-- `TechnitiumCollector._call_api` (lines 47–76): returns the payload the
Python function returns, paired with the log line it emits, if any. The
`data.get("status")` attribute access on a non-dict JSON body raises inside
the `try` and is caught like the other exceptions. -/
def callAPI (cfg : Config) (endpoint : String) (_params : List (String × String)) (hr : HttpResult) : JVal × Option String :=
  match tryBody hr with
  | .error m => (JVal.obj [], some ("Request Failed [" ++ endpoint ++ "]: " ++ sanitize cfg.token m))
  | .ok v =>
    match v with
    | .obj kvs =>
      if statusIsOk kvs then
        ((lookupJ kvs "response").getD (JVal.obj []), none)
      else
        (JVal.obj [], some ("Technitium API returned non-ok status for " ++ endpoint))
    | _ =>
      (JVal.obj [], some ("Request Failed [" ++ endpoint ++ "]: " ++
        sanitize cfg.token "AttributeError: object has no attribute get"))

/-- Classifies the outcomes on which `_call_api` takes a failure path:
a raised transport exception, a 4xx/5xx status, a non-JSON body, a JSON
body that is not an object, or a top-level `status` field different from
the string `"ok"`. -/
def apiFails (hr : HttpResult) : Bool :=
  match hr with
  | .raised _ => true
  | .got r =>
    if 400 ≤ r.code ∧ r.code < 600 then true
    else
      match r.jsonBody with
      | none => true
      | some (.obj kvs) => !statusIsOk kvs
      | some _ => true

-- ---------------------------------------------------------------------------
-- Metric families and the generator model of `collect`
-- ---------------------------------------------------------------------------

/-- A sample value: a scalar gauge or a structured info record
(`InfoMetricFamily`). -/
inductive MValue where
  | gauge (v : ℚ)
  | info (fields : List (String × String))

/-- One metric sample: the positional label values as passed to
`add_metric` (raw Python objects, hence `JVal`), and the value. -/
structure Sample where
  labels : List JVal
  value : MValue

/-- One metric family as constructed by `GaugeMetricFamily` /
`InfoMetricFamily` and then yielded. -/
structure Family where
  name : String
  help : String
  labelNames : List String
  samples : List Sample

/-- State of one run of the `collect` generator: the families yielded so
far, the log lines emitted so far, and `some msg` when the generator raised
(a raise ends the run; families yielded before it were already delivered). -/
structure Gen where
  fams : List Family
  logs : List String
  err : Option String

/-- Sequencing of generator segments: a raise in the first segment
discards everything the second would have produced. -/
def Gen.seq (g h : Gen) : Gen :=
  match g.err with
  | some _ => g
  | none => ⟨g.fams ++ h.fams, g.logs ++ h.logs, h.err⟩

/-- Turns the all-or-nothing construction of one family (built completely
before being yielded) into a generator segment. -/
def genOfE : Except String (List Family) → Gen
  | .ok fs => ⟨fs, [], none⟩
  | .error e => ⟨[], [], some e⟩

/-- The upstream responses consumed by one collection cycle, one per
`_call_api` call site, in program order. -/
structure Upstream where
  statsHr : HttpResult
  zonesHr : HttpResult
  dhcpHr : HttpResult
  topClientsHr : HttpResult
  topDomainsHr : HttpResult
  topBlockedHr : HttpResult

/-- Lines 91–95: the reachability gauge, from the truthiness of
`stats = stats_data.get("stats", {})`. -/
def upFamily (cfg : Config) (stats : JVal) : Family :=
  ⟨"technitium_up", "Technitium API reachable", ["server"],
    [⟨[.str cfg.serverLabel], .gauge (if pyTruthy stats then 1 else 0)⟩]⟩

/-- Lines 99–107: the fixed (metric name ↦ stats field) table. -/
def simpleMap : List (String × String) :=
  [("technitium_dns_clients_window", "totalClients"),
   ("technitium_dns_zones", "zones"),
   ("technitium_dns_cached_entries", "cachedEntries"),
   ("technitium_dns_allowed_zones", "allowedZones"),
   ("technitium_dns_blocked_zones", "blockedZones"),
   ("technitium_dns_allowlist_zones", "allowListZones"),
   ("technitium_dns_blocklist_zones", "blockListZones")]

/-- Lines 108–113: the seven simple gauges, yielded one by one; a raise
keeps the families already yielded. -/
def simpleFamsGo (cfg : Config) (stats : JVal) : List (String × String) → List Family × Option String
  | [] => ([], none)
  | (metric, key) :: rest =>
    match pyGetD stats key (.num 0) with
    | .error e => ([], some e)
    | .ok v =>
      match pyFloatE v with
      | .error e => ([], some e)
      | .ok x =>
        let (fs, err) := simpleFamsGo cfg stats rest
        (⟨metric, "From Dashboard Stats: " ++ key, ["server"],
          [⟨[.str cfg.serverLabel], .gauge x⟩]⟩ :: fs, err)

/-- Lines 121–132: the (stats field ↦ category label) table. -/
def qMap : List (String × String) :=
  [("totalQueries", "all"),
   ("totalNoError", "no_error"),
   ("totalServerFailure", "servfail"),
   ("totalNxDomain", "nxdomain"),
   ("totalRefused", "refused"),
   ("totalAuthoritative", "authoritative"),
   ("totalRecursive", "recursive"),
   ("totalCached", "cached"),
   ("totalBlocked", "blocked"),
   ("totalDropped", "dropped")]

/-- Lines 133–134: one sample of the query-category family, for one
`qMap` entry `(stats field, category label)`. -/
def qSampleE (cfg : Config) (stats : JVal) (p : String × String) : Except String Sample :=
  match pyGetD stats p.1 (.num 0) with
  | .error e => .error e
  | .ok v =>
    match pyFloatE v with
    | .error e => .error e
    | .ok x => .ok ⟨[.str cfg.serverLabel, .str p.2], .gauge x⟩

/-- Lines 116–135: the query-category family (built fully, then yielded). -/
def qFamilyE (cfg : Config) (stats : JVal) : Except String Family :=
  match exceptMap (qSampleE cfg stats) qMap with
  | .error e => .error e
  | .ok ss =>
    .ok ⟨"technitium_dns_queries_window",
      "Queries by result category in the current stats window",
      ["server", "category"], ss⟩

/-- One sample of a chart family, for one zipped (label, value) pair. -/
def chartSampleE (cfg : Config) (p : JVal × JVal) : Except String Sample :=
  match pyFloatE p.2 with
  | .error e => .error e
  | .ok x => .ok ⟨[.str cfg.serverLabel, p.1], .gauge x⟩

/-- Lines 137–177, one chart block (the three blocks are identical up to
the chart key and family name): emitted only when the chart object is
truthy and its `datasets` entry is truthy; pairs `labels` with
`datasets[0].data` positionally via `zip` (truncating to the shorter). -/
def chartStep (cfg : Config) (chartKey metricName helpText labelName : String) (statsData : JVal) : Except String (List Family) :=
  match pyGetD statsData chartKey (.obj []) with
  | .error e => .error e
  | .ok chart =>
    if pyTruthy chart then
      match pyGetD chart "datasets" .null with
      | .error e => .error e
      | .ok ds =>
        if pyTruthy ds then
          match pyGetD chart "labels" (.arr []) with
          | .error e => .error e
          | .ok labelsJ =>
            match pySub0 ds with
            | .error e => .error e
            | .ok d0 =>
              match pyGetD d0 "data" (.arr []) with
              | .error e => .error e
              | .ok dataJ =>
                match pyIter labelsJ with
                | .error e => .error e
                | .ok ls =>
                  match pyIter dataJ with
                  | .error e => .error e
                  | .ok xs =>
                    match exceptMap (chartSampleE cfg) (ls.zip xs) with
                    | .error e => .error e
                    | .ok samples =>
                      .ok [⟨metricName, helpText, ["server", labelName], samples⟩]
        else .ok []
    else .ok []

/-- Lines 97–177: the block guarded by `if stats:`. -/
def statsBlockGen (cfg : Config) (statsData stats : JVal) : Gen :=
  if pyTruthy stats then
    let (sfams, serr) := simpleFamsGo cfg stats simpleMap
    match serr with
    | some e => ⟨sfams, [], some e⟩
    | none =>
      match qFamilyE cfg stats with
      | .error e => ⟨sfams, [], some e⟩
      | .ok qf =>
        (Gen.mk (sfams ++ [qf]) [] none).seq
          (genOfE (chartStep cfg "queryResponseChartData" "technitium_dns_response_type_total"
            "Response types in the current stats window" "type" statsData)) |>.seq
          (genOfE (chartStep cfg "queryTypeChartData" "technitium_dns_query_type_total"
            "DNS query types in the current stats window" "qtype" statsData)) |>.seq
          (genOfE (chartStep cfg "protocolTypeChartData" "technitium_dns_protocol_queries"
            "Queries by protocol in the current stats window" "protocol" statsData))
  else ⟨[], [], none⟩

/-- Lines 79–177 (step 1): the dashboard-stats call, the reachability
gauge, and the stats block. The `stats_data.get("stats", {})` attribute
access happens before the reachability gauge is yielded. -/
def statsGen (cfg : Config) (hr : HttpResult) : Gen :=
  let (statsData, slog) := callAPI cfg "/api/dashboard/stats/get"
    [("type", cfg.statsRange), ("utc", "true")] hr
  match pyGetD statsData "stats" (.obj []) with
  | .error e => ⟨[], slog.toList, some e⟩
  | .ok stats => (Gen.mk [upFamily cfg stats] slog.toList none).seq (statsBlockGen cfg statsData stats)

/-- Lines 192–202: one zone-info sample. -/
def zoneSampleE (cfg : Config) (z : JVal) : Except String Sample :=
  match pyGetD z "name" (.str "unknown") with
  | .error e => .error e
  | .ok nm =>
    match pyGetD z "type" (.str "unknown") with
    | .error e => .error e
    | .ok ty =>
      match pyGetD z "disabled" (.bool false) with
      | .error e => .error e
      | .ok dis =>
        match pyGetD z "internal" (.bool false) with
        | .error e => .error e
        | .ok itl =>
          match pyGetD z "soaSerial" (.num 0) with
          | .error e => .error e
          | .ok soa =>
            .ok ⟨[.str cfg.serverLabel, nm, ty,
                  .str (strLower (pyStr dis)), .str (strLower (pyStr itl))],
                 .info [("serial", pyStr soa)]⟩

/-- Families yielded by a section whose single family is built completely
before being yielded, given the section's log lines: a raise yields
nothing from the section. -/
def genOfBody (body : Except String (List Family)) (lg : List String) : Gen :=
  match body with
  | .ok fs => ⟨fs, lg, none⟩
  | .error e => ⟨[], lg, some e⟩

/-- Lines 185–203: processing of the zone-list payload. -/
def zonesBodyE (cfg : Config) (zd : JVal) : Except String (List Family) :=
  match pyGetD zd "zones" (.arr []) with
  | .error e => .error e
  | .ok zl =>
    if pyTruthy zl then
      match pyIter zl with
      | .error e => .error e
      | .ok zs =>
        match exceptMap (zoneSampleE cfg) zs with
        | .error e => .error e
        | .ok samples =>
          .ok [⟨"technitium_zone", "Zone detailed information",
                ["server", "zone", "type", "disabled", "internal"], samples⟩]
    else .ok []

/-- Lines 182–203 (step 2): zone list call and zone-info family. -/
def zonesGen (cfg : Config) (hr : HttpResult) : Gen :=
  let (zd, zlog) := callAPI cfg "/api/zones/list"
    [("pageNumber", "1"), ("pageSize", "1000")] hr
  genOfBody (zonesBodyE cfg zd) zlog.toList

/-- A hashable Python value, as required of a dict key. (The numeric
aliasing of Python bools with 0/1 as dict keys is outside the modelled
fragment; the upstream lease fields are strings.) -/
inductive PyKey where
  | null
  | bool (b : Bool)
  | num (n : Int)
  | str (s : String)
  deriving DecidableEq

/-- The JSON value a key came from (dicts keep the stored key object;
the labels are built from it). -/
def keyVal : PyKey → JVal
  | .null => .null
  | .bool b => .bool b
  | .num n => .num n
  | .str s => .str s

/-- Hashing a value as a dict key: containers raise `TypeError`. -/
def toKey : JVal → Except String PyKey
  | .null => .ok .null
  | .bool b => .ok (.bool b)
  | .num n => .ok (.num n)
  | .str s => .ok (.str s)
  | _ => .error "TypeError: unhashable type"

/-- Lines 213–214 for one lease: its `(scope, type)` key pair. -/
def leaseKeysE (v : JVal) : Except String (PyKey × PyKey) :=
  match pyGetD v "scope" (.str "unknown") with
  | .error e => .error e
  | .ok sc =>
    match pyGetD v "type" (.str "Unknown") with
    | .error e => .error e
    | .ok ty =>
      match toKey sc with
      | .error e => .error e
      | .ok ks =>
        match toKey ty with
        | .error e => .error e
        | .ok kt => .ok (ks, kt)

/-- `counts[scope][ltype] = counts[scope].get(ltype, 0) + 1` on the inner
dict: existing keys are updated in place, new keys appended. -/
def bumpT : List (PyKey × Nat) → PyKey → List (PyKey × Nat)
  | [], t => [(t, 1)]
  | (t', n) :: rest, t =>
    if t' = t then (t', n + 1) :: rest else (t', n) :: bumpT rest t

/-- One lease added to the nested `counts` dict (lines 215–217). -/
def bumpS : List (PyKey × List (PyKey × Nat)) → PyKey → PyKey → List (PyKey × List (PyKey × Nat))
  | [], s, t => [(s, [(t, 1)])]
  | (s', m) :: rest, s, t =>
    if s' = s then (s', bumpT m t) :: rest else (s', m) :: bumpS rest s t

/-- Lines 211–217: the nested scope ↦ type ↦ count dict, in insertion
order. -/
def groupCounts (ps : List (PyKey × PyKey)) : List (PyKey × List (PyKey × Nat)) :=
  ps.foldl (fun acc p => bumpS acc p.1 p.2) []

/-- Inner loop of lines 224–229: samples of one scope. -/
def dhcpSamplesT (cfg : Config) (s : PyKey) : List (PyKey × Nat) → List Sample
  | [] => []
  | (t, n) :: rest =>
    ⟨[.str cfg.serverLabel, keyVal s, keyVal t], .gauge (n : ℚ)⟩ :: dhcpSamplesT cfg s rest

/-- Lines 224–229: samples of the DHCP family, in dict iteration order. -/
def dhcpSamplesS (cfg : Config) : List (PyKey × List (PyKey × Nat)) → List Sample
  | [] => []
  | (s, m) :: rest => dhcpSamplesT cfg s m ++ dhcpSamplesS cfg rest

/-- Lines 209–230: processing of the lease-list payload. -/
def dhcpBodyE (cfg : Config) (dd : JVal) : Except String (List Family) :=
  match pyGetD dd "leases" (.arr []) with
  | .error e => .error e
  | .ok ll =>
    if pyTruthy ll then
      match pyIter ll with
      | .error e => .error e
      | .ok ls =>
        match exceptMap leaseKeysE ls with
        | .error e => .error e
        | .ok ps =>
          .ok [⟨"technitium_dhcp_leases_total",
                "Number of DHCP leases by scope and type",
                ["server", "scope", "type"], dhcpSamplesS cfg (groupCounts ps)⟩]
    else .ok []

/-- Lines 208–230 (step 3): DHCP lease call and lease-count family. -/
def dhcpGen (cfg : Config) (hr : HttpResult) : Gen :=
  let (dd, dlog) := callAPI cfg "/api/dhcp/leases/list" [] hr
  genOfBody (dhcpBodyE cfg dd) dlog.toList

/-- Lines 265–274: one top-N sample (`TopClients` carries two item
labels, the others one). -/
def topSampleE (cfg : Config) (statsType : String) (item : JVal) : Except String Sample :=
  if statsType == "TopClients" then
    match pyGetD item "name" (.str "") with
    | .error e => .error e
    | .ok nm =>
      match pyGetD item "domain" (.str "") with
      | .error e => .error e
      | .ok dom =>
        match pyGetD item "hits" (.num 0) with
        | .error e => .error e
        | .ok h =>
          match pyFloatE h with
          | .error e => .error e
          | .ok x => .ok ⟨[.str cfg.serverLabel, nm, dom], .gauge x⟩
  else
    match pyGetD item "name" (.str "") with
    | .error e => .error e
    | .ok nm =>
      match pyGetD item "hits" (.num 0) with
      | .error e => .error e
      | .ok h =>
        match pyFloatE h with
        | .error e => .error e
        | .ok x => .ok ⟨[.str cfg.serverLabel, nm], .gauge x⟩

/-- Lines 255–281: one iteration of the top-stats loop. The whole body sits
in a `try`, so a raise during payload processing is caught and logged with
token redaction and the family is not yielded; `_call_api` itself never
raises, so a failing call surfaces as the empty payload plus its own log
line. -/
def topBodyE (cfg : Config) (statsType metricName : String) (labelNames : List String) (jsonKey : String) (data : JVal) : Except String (List Family) :=
  match pyGetD data jsonKey (.arr []) with
  | .error e => .error e
  | .ok items =>
    if pyTruthy items then
      match pyIter items with
      | .error e => .error e
      | .ok xs =>
        match exceptMap (topSampleE cfg statsType) xs with
        | .error e => .error e
        | .ok samples => .ok [⟨metricName, "Hits for " ++ statsType, labelNames, samples⟩]
    else .ok []

def topStep (cfg : Config) (statsType metricName : String) (labelNames : List String) (jsonKey : String) (hr : HttpResult) : List Family × List String :=
  let (data, clog) := callAPI cfg "/api/dashboard/stats/getTop"
    [("statsType", statsType), ("limit", toString cfg.topLimit)] hr
  match topBodyE cfg statsType metricName labelNames jsonKey data with
  | .ok fs => (fs, clog.toList)
  | .error e => ([], clog.toList ++ ["Failed to scrape " ++ statsType ++ ": " ++ sanitize cfg.token e])

/-- First iteration of the top-stats loop (lines 236–241). -/
def topStep1 (cfg : Config) (hr : HttpResult) : List Family × List String :=
  topStep cfg "TopClients" "technitium_dns_top_client_hits"
    ["server", "client_ip", "client_name"] "topClients" hr

/-- Second iteration of the top-stats loop (lines 242–247). -/
def topStep2 (cfg : Config) (hr : HttpResult) : List Family × List String :=
  topStep cfg "TopDomains" "technitium_dns_top_domain_hits"
    ["server", "domain"] "topDomains" hr

/-- Third iteration of the top-stats loop (lines 248–253). -/
def topStep3 (cfg : Config) (hr : HttpResult) : List Family × List String :=
  topStep cfg "TopBlockedDomains" "technitium_dns_top_blocked_domain_hits"
    ["server", "domain"] "topBlockedDomains" hr

/-- Lines 235–281 (step 4): the three top-N queries in order. No iteration
can raise past its `try`. -/
def topGen (cfg : Config) (h1 h2 h3 : HttpResult) : Gen :=
  ⟨(topStep1 cfg h1).1 ++ (topStep2 cfg h2).1 ++ (topStep3 cfg h3).1,
   (topStep1 cfg h1).2 ++ (topStep2 cfg h2).2 ++ (topStep3 cfg h3).2, none⟩

/-- Exactly one of the three top-N calls takes a `_call_api` failure path
while the other two succeed. -/
def oneTopFails (up : Upstream) : Prop :=
  (apiFails up.topClientsHr = true ∧ apiFails up.topDomainsHr = false ∧ apiFails up.topBlockedHr = false) ∨
  (apiFails up.topClientsHr = false ∧ apiFails up.topDomainsHr = true ∧ apiFails up.topBlockedHr = false) ∨
  (apiFails up.topClientsHr = false ∧ apiFails up.topDomainsHr = false ∧ apiFails up.topBlockedHr = true)

/-- Lines 286–292 (step 5): the scrape-duration gauge,
`time.time() - start_t`. -/
def durationFamily (cfg : Config) (d : ℚ) : Family :=
  ⟨"technitium_scrape_duration_seconds", "Exporter scrape duration", ["server"],
    [⟨[.str cfg.serverLabel], .gauge d⟩]⟩

/-- Steps 1–3 of `collect` (everything before the top-stats loop). -/
def preTopGen (cfg : Config) (up : Upstream) : Gen :=
  ((statsGen cfg up.statsHr).seq (zonesGen cfg up.zonesHr)).seq (dhcpGen cfg up.dhcpHr)

/-- `TechnitiumCollector.collect` (lines 78–292): `t0` and `t1` are the two
`time.time()` readings (line 79 and line 291). -/
def collect (cfg : Config) (up : Upstream) (t0 t1 : ℚ) : Gen :=
  ((preTopGen cfg up).seq (topGen cfg up.topClientsHr up.topDomainsHr up.topBlockedHr)).seq
    (Gen.mk [durationFamily cfg (t1 - t0)] [] none)

-- ---------------------------------------------------------------------------
-- Derived classifiers and spec-side helpers
-- ---------------------------------------------------------------------------

/-- The body `_call_api` succeeds on: a response whose status code is not
in `[400, 600)`, with a JSON object body whose `status` field is the
string `"ok"`. -/
def apiOkBody : HttpResult → Option (List (String × JVal))
  | .raised _ => none
  | .got r =>
    if 400 ≤ r.code ∧ r.code < 600 then none
    else
      match r.jsonBody with
      | some (.obj kvs) => if statusIsOk kvs then some kvs else none
      | _ => none

/-- Value of `float(stats.get(key, 0))` when it does not raise. -/
def floatD (kvs : List (String × JVal)) (key : String) : ℚ :=
  match pyFloatE ((lookupJ kvs key).getD (.num 0)) with
  | .ok x => x
  | .error _ => 0

/-- Value of `float(v)` when it does not raise. -/
def floatOr0 (v : JVal) : ℚ :=
  match pyFloatE v with
  | .ok x => x
  | .error _ => 0

/-- Every listed field of the object converts with `float()` (fields
absent from the object default to `0` and always convert). -/
@[reducible] def floatableFields (kvs : List (String × JVal)) (keys : List String) : Prop :=
  ∀ k ∈ keys, (pyFloatE ((lookupJ kvs k).getD (.num 0))).isOk = true

/-- The simple-gauge family built for one `simpleMap` entry
`(metric name, stats field)`. -/
def simpleFamOf (cfg : Config) (kvs : List (String × JVal)) (p : String × String) : Family :=
  ⟨p.1, "From Dashboard Stats: " ++ p.2, ["server"],
    [⟨[.str cfg.serverLabel], .gauge (floatD kvs p.2)⟩]⟩

/-- The query-category family of a well-typed stats object. -/
def qFamilyOf (cfg : Config) (kvs : List (String × JVal)) : Family :=
  ⟨"technitium_dns_queries_window",
   "Queries by result category in the current stats window",
   ["server", "category"],
   qMap.map (fun p => ⟨[.str cfg.serverLabel, .str p.2], .gauge (floatD kvs p.1)⟩)⟩

/-- The zone-info sample of a zone object: labels are the server label,
the raw `name` and `type` values (default `"unknown"`), and the lowercased
`str()` renderings of the `disabled` / `internal` flags (default `False`);
the info value holds `str(soaSerial)` (default `0`). -/
def zoneObjSample (cfg : Config) (kvz : List (String × JVal)) : Sample :=
  ⟨[.str cfg.serverLabel,
    (lookupJ kvz "name").getD (.str "unknown"),
    (lookupJ kvz "type").getD (.str "unknown"),
    .str (strLower (pyStr ((lookupJ kvz "disabled").getD (.bool false)))),
    .str (strLower (pyStr ((lookupJ kvz "internal").getD (.bool false))))],
   .info [("serial", pyStr ((lookupJ kvz "soaSerial").getD (.num 0)))]⟩

/-- The zone-info sample a zone produces when its construction does not
raise (it never raises for a dict-shaped zone). -/
def zoneSampleD (cfg : Config) (z : JVal) : Sample :=
  match zoneSampleE cfg z with
  | .ok s => s
  | .error _ => ⟨[], .info []⟩

/-- Lookup with default `0` in the inner type ↦ count dict. -/
def lookupT : List (PyKey × Nat) → PyKey → Nat
  | [], _ => 0
  | (t', n) :: rest, t => if t' = t then n else lookupT rest t

/-- Lookup with default `0` in the nested scope ↦ type ↦ count dict. -/
def lookup2 : List (PyKey × List (PyKey × Nat)) → PyKey → PyKey → Nat
  | [], _, _ => 0
  | (s', m) :: rest, s, t => if s' = s then lookupT m t else lookup2 rest s t

/-- Number of occurrences of a `(scope, type)` pair in the lease key
list. -/
def pairCount : List (PyKey × PyKey) → (PyKey × PyKey) → Nat
  | [], _ => 0
  | q :: rest, p => (if q = p then 1 else 0) + pairCount rest p

/-- All `(scope, type)` pairs present in the nested count dict, in sample
order. -/
def flatKeys : List (PyKey × List (PyKey × Nat)) → List (PyKey × PyKey)
  | [] => []
  | (s, m) :: rest => m.map (fun tn => (s, tn.1)) ++ flatKeys rest

/-- Scope keys of the nested count dict. -/
def scopesOf (counts : List (PyKey × List (PyKey × Nat))) : List PyKey :=
  counts.map Prod.fst

/-- Well-formedness of the nested count dict (automatic for a Python
dict): distinct scope keys and distinct type keys per scope. -/
def countsWF (counts : List (PyKey × List (PyKey × Nat))) : Prop :=
  (scopesOf counts).Nodup ∧ ∀ p ∈ counts, (p.2.map Prod.fst).Nodup

/-- A family either does not carry the scrape-duration name, or is not the
duration family; and all its samples put the server label first. Shared
shape invariant of every family built from upstream data. -/
def famOK (cfg : Config) (f : Family) : Prop :=
  f.name ≠ "technitium_scrape_duration_seconds" ∧
  ∀ s ∈ f.samples, s.labels.head? = some (.str cfg.serverLabel)

-- ---------------------------------------------------------------------------
-- Concrete fixtures for witnesses and counterexamples
-- ---------------------------------------------------------------------------

/-- A configuration with a nonempty token. -/
def cfgEx : Config := ⟨"secret", "", "srv", "LastHour", 50⟩

/-- A configuration whose token `"Dz"` straddles the redaction marker
boundary. -/
def cfgDz : Config := ⟨"Dz", "", "srv", "LastHour", 50⟩

/-- A 200 response with an ok-status JSON body carrying `v` as
`response`. -/
def okHr (v : JVal) : HttpResult :=
  .got ⟨200, "http error text", some (.obj [("status", .str "ok"), ("response", v)]), "json error text"⟩

/-- A 300 (non-2xx, non-4xx/5xx) response with an ok-status JSON body. -/
def hr300 : HttpResult :=
  .got ⟨300, "http error text", some (.obj [("status", .str "ok"), ("response", .obj [("x", .num 1)])]), "json error text"⟩

/-- Stats object of the spec's query-category example. -/
def kvsC5 : List (String × JVal) :=
  [("totalQueries", .num 100), ("totalNoError", .num 80), ("totalNxDomain", .num 20)]

/-- Stats payload of the spec's query-category example. -/
def statsPayloadEx : JVal := .obj [("stats", .obj kvsC5)]

/-- Cycle for the query-category example: the dashboard query returns the
example stats, every other query fails at transport level. -/
def upC5 : Upstream :=
  ⟨okHr statsPayloadEx, .raised "down", .raised "down", .raised "down", .raised "down", .raised "down"⟩

/-- Cycle whose dashboard payload is non-empty but has no `stats` field. -/
def upC4 : Upstream :=
  ⟨okHr (.obj [("foo", .num 1)]), .raised "down", .raised "down", .raised "down", .raised "down", .raised "down"⟩

/-- Cycle whose dashboard query succeeds with `response: null`. -/
def upNull : Upstream :=
  ⟨.got ⟨200, "http error text", some (.obj [("status", .str "ok"), ("response", .null)]), "json error text"⟩,
   .raised "down", .raised "down", .raised "down", .raised "down", .raised "down"⟩

/-- Cycle in which the middle top-N query (top domains) fails and the
other two succeed with one item each. -/
def upC3 : Upstream :=
  ⟨.raised "down", .raised "down", .raised "down",
   okHr (.obj [("topClients", .arr [.obj [("name", .str "1.2.3.4"), ("domain", .str "pc1"), ("hits", .num 7)]])]),
   .raised "oops",
   okHr (.obj [("topBlockedDomains", .arr [.obj [("name", .str "ads.example"), ("hits", .num 3)]])])⟩

/-- Zone-list response of the spec's zone example. -/
def zonesHrEx : HttpResult :=
  okHr (.obj [("zones", .arr [.obj [("name", .str "example.com"), ("type", .str "Primary"),
    ("disabled", .bool false), ("internal", .bool false), ("soaSerial", .num 5)]])])

/-- Lease-list response of the spec's DHCP example. -/
def dhcpHrEx : HttpResult :=
  okHr (.obj [("leases", .arr
    [.obj [("scope", .str "A"), ("type", .str "Dynamic")],
     .obj [("scope", .str "A"), ("type", .str "Dynamic")],
     .obj [("scope", .str "A"), ("type", .str "Reserved")]])])

/-- Stats data with one chart whose `labels` and `data` lengths differ
(three labels, two data points). -/
def chartDataEx : List (String × JVal) :=
  [("queryResponseChartData", .obj
    [("labels", .arr [.str "a", .str "b", .str "c"]),
     ("datasets", .arr [.obj [("data", .arr [.num 1, .num 2])]])])]

-- ---------------------------------------------------------------------------
-- Generator and `_call_api` lemmas
-- ---------------------------------------------------------------------------

theorem Gen.seq_none {g h : Gen} (hg : g.err = none) :
    g.seq h = ⟨g.fams ++ h.fams, g.logs ++ h.logs, h.err⟩ := by
  simp [Gen.seq, hg]

theorem Gen.seq_some {g h : Gen} {e : String} (hg : g.err = some e) : g.seq h = g := by
  simp [Gen.seq, hg]

theorem Gen.seq_fams_ex (g h : Gen) : ∃ r, (g.seq h).fams = g.fams ++ r := by
  cases hg : g.err with
  | none => exact ⟨h.fams, by rw [Gen.seq_none hg]⟩
  | some e => exact ⟨[], by rw [Gen.seq_some hg, List.append_nil]⟩

theorem callAPI_err (cfg : Config) (ep : String) (ps : List (String × String))
    (hr : HttpResult) (m : String) (h : tryBody hr = .error m) :
    callAPI cfg ep ps hr =
      (JVal.obj [], some ("Request Failed [" ++ ep ++ "]: " ++ sanitize cfg.token m)) := by
  simp [callAPI, h]

theorem callAPI_nonok (cfg : Config) (ep : String) (ps : List (String × String))
    (hr : HttpResult) (kvs : List (String × JVal)) (h : tryBody hr = .ok (.obj kvs))
    (hs : statusIsOk kvs = false) :
    callAPI cfg ep ps hr =
      (JVal.obj [], some ("Technitium API returned non-ok status for " ++ ep)) := by
  simp [callAPI, h, hs]

theorem callAPI_notdict (cfg : Config) (ep : String) (ps : List (String × String))
    (hr : HttpResult) (v : JVal) (h : tryBody hr = .ok v) (hv : v.isObj = false) :
    callAPI cfg ep ps hr =
      (JVal.obj [], some ("Request Failed [" ++ ep ++ "]: " ++
        sanitize cfg.token "AttributeError: object has no attribute get")) := by
  cases v <;> simp_all [callAPI, JVal.isObj]

theorem callAPI_fail (cfg : Config) (ep : String) (ps : List (String × String))
    (hr : HttpResult) (h : apiFails hr = true) :
    ∃ lg, callAPI cfg ep ps hr = (JVal.obj [], some lg) := by
  cases hr with
  | raised m => exact ⟨_, callAPI_err cfg ep ps _ m rfl⟩
  | got r =>
    obtain ⟨code, he, jb, je⟩ := r
    by_cases hc : 400 ≤ code ∧ code < 600
    · exact ⟨_, callAPI_err cfg ep ps _ he (by simp [tryBody, hc])⟩
    · cases jb with
      | none => exact ⟨_, callAPI_err cfg ep ps _ je (by simp [tryBody, hc])⟩
      | some v =>
        have hok : tryBody (.got ⟨code, he, some v, je⟩) = .ok v := by simp [tryBody, hc]
        cases v with
        | obj kvs =>
          have hs : statusIsOk kvs = false := by
            simpa [apiFails, hc] using h
          exact ⟨_, callAPI_nonok cfg ep ps _ kvs hok hs⟩
        | null => exact ⟨_, callAPI_notdict cfg ep ps _ _ hok rfl⟩
        | bool b => exact ⟨_, callAPI_notdict cfg ep ps _ _ hok rfl⟩
        | num n => exact ⟨_, callAPI_notdict cfg ep ps _ _ hok rfl⟩
        | str s => exact ⟨_, callAPI_notdict cfg ep ps _ _ hok rfl⟩
        | arr xs => exact ⟨_, callAPI_notdict cfg ep ps _ _ hok rfl⟩

theorem callAPI_ok (cfg : Config) (ep : String) (ps : List (String × String))
    (hr : HttpResult) (kvs : List (String × JVal)) (h : apiOkBody hr = some kvs) :
    callAPI cfg ep ps hr = ((lookupJ kvs "response").getD (JVal.obj []), none) := by
  cases hr with
  | raised m => simp [apiOkBody] at h
  | got r =>
    obtain ⟨code, he, jb, je⟩ := r
    by_cases hc : 400 ≤ code ∧ code < 600
    · simp [apiOkBody, hc] at h
    · cases jb with
      | none => simp [apiOkBody, hc] at h
      | some v =>
        cases v with
        | obj kvs' =>
          by_cases hs : statusIsOk kvs' = true
          · have : kvs' = kvs := by simpa [apiOkBody, hc, hs] using h
            subst this
            simp [callAPI, tryBody, hc, hs]
          · simp [apiOkBody, hc, Bool.eq_false_iff.mpr hs] at h
        | null => simp [apiOkBody, hc] at h
        | bool b => simp [apiOkBody, hc] at h
        | num n => simp [apiOkBody, hc] at h
        | str s => simp [apiOkBody, hc] at h
        | arr xs => simp [apiOkBody, hc] at h

theorem apiFails_false_iff (hr : HttpResult) :
    apiFails hr = false ↔ (apiOkBody hr).isSome = true := by
  cases hr with
  | raised m => simp [apiFails, apiOkBody]
  | got r =>
    obtain ⟨code, he, jb, je⟩ := r
    by_cases hc : 400 ≤ code ∧ code < 600
    · simp [apiFails, apiOkBody, hc]
    · cases jb with
      | none => simp [apiFails, apiOkBody, hc]
      | some v =>
        cases v with
        | obj kvs => by_cases hs : statusIsOk kvs = true <;> simp [apiFails, apiOkBody, hc, hs]
        | null => simp [apiFails, apiOkBody, hc]
        | bool b => simp [apiFails, apiOkBody, hc]
        | num n => simp [apiFails, apiOkBody, hc]
        | str s => simp [apiFails, apiOkBody, hc]
        | arr xs => simp [apiFails, apiOkBody, hc]

-- ---------------------------------------------------------------------------
-- Claim C1
-- ---------------------------------------------------------------------------

/-- C1 counterexample: the claim says the empty sentinel is returned
whenever the response has a non-2xx status, but `raise_for_status` only
raises for 4xx/5xx. A 300 response with a valid ok-status JSON body (code
300 is not 2xx) makes `_call_api` return the nested response payload, not
the sentinel, and log nothing. -/
theorem c1_counterexample :
    ¬ (200 ≤ (300 : ℕ) ∧ (300 : ℕ) < 300) ∧
    (callAPI cfgEx "/api/dashboard/stats/get" [] hr300).1 = JVal.obj [("x", JVal.num 1)] ∧
    (callAPI cfgEx "/api/dashboard/stats/get" [] hr300).1 ≠ JVal.obj [] ∧
    (callAPI cfgEx "/api/dashboard/stats/get" [] hr300).2 = none := by
  refine ⟨by decide, rfl, ?_, rfl⟩
  have h : (callAPI cfgEx "/api/dashboard/stats/get" [] hr300).1 = JVal.obj [("x", JVal.num 1)] := rfl
  rw [h]
  simp

/-- C1 (amended): for every endpoint path and extra-parameter map,
`_call_api` returns the empty-payload sentinel and logs one line whenever
the HTTP request raises a transport error, the response status is 4xx or
5xx (the statuses `raise_for_status` raises for), the body is not JSON,
the JSON body is not an object, or the body's top-level `status` field
differs from the string `"ok"`; it never raises (the model is a total
function whose `try` block is made explicit in `tryBody`). On every other
outcome it returns the JSON body's nested `response` payload and logs
nothing. -/
theorem c1_call_api_failure_modes (cfg : Config) (ep : String)
    (ps : List (String × String)) (hr : HttpResult) :
    (apiFails hr = true →
      (callAPI cfg ep ps hr).1 = JVal.obj [] ∧ ((callAPI cfg ep ps hr).2).isSome = true) ∧
    (∀ kvs, apiOkBody hr = some kvs →
      callAPI cfg ep ps hr = ((lookupJ kvs "response").getD (JVal.obj []), none)) ∧
    (apiFails hr = false ↔ (apiOkBody hr).isSome = true) := by
  refine ⟨?_, ?_, apiFails_false_iff hr⟩
  · intro h
    obtain ⟨lg, hl⟩ := callAPI_fail cfg ep ps hr h
    rw [hl]
    exact ⟨rfl, rfl⟩
  · intro kvs h
    exact callAPI_ok cfg ep ps hr kvs h

/-- C1 witness: a transport failure yields the sentinel; a 200 ok-status
body yields its `response` payload. -/
theorem c1_witness :
    (callAPI cfgEx "/api/zones/list" [] (.raised "connection refused")).1 = JVal.obj [] ∧
    callAPI cfgEx "/api/zones/list" [] (okHr (.num 7)) = (JVal.num 7, none) :=
  ⟨((c1_call_api_failure_modes cfgEx "/api/zones/list" [] (.raised "connection refused")).1 rfl).1,
   ((c1_call_api_failure_modes cfgEx "/api/zones/list" [] (okHr (.num 7))).2.1
     [("status", .str "ok"), ("response", .num 7)] rfl).trans rfl⟩

-- ---------------------------------------------------------------------------
-- Redaction lemmas and claim C2
-- ---------------------------------------------------------------------------

theorem replaceSkip_eq_drop (pat rep : List Char) :
    ∀ (s : List Char) (k : Nat), replaceSkip pat rep k s = replaceSkip pat rep 0 (s.drop k) := by
  intro s
  induction s with
  | nil => intro k; simp [replaceSkip]
  | cons c rest ih =>
    intro k
    cases k with
    | zero => simp
    | succ k => simpa [replaceSkip] using ih k

theorem replaceAll_cons (pat rep : List Char) (c : Char) (rest : List Char) :
    replaceAll pat rep (c :: rest) =
      if isPre pat (c :: rest) && !pat.isEmpty then
        rep ++ replaceAll pat rep (rest.drop (pat.length - 1))
      else
        c :: replaceAll pat rep rest := by
  show (if isPre pat (c :: rest) && !pat.isEmpty then
      rep ++ replaceSkip pat rep (pat.length - 1) rest
    else c :: replaceSkip pat rep 0 rest) = _
  rw [replaceSkip_eq_drop pat rep rest (pat.length - 1)]
  rfl

theorem isPre_replaceAll (pat rep : List Char) (hrep : rep ≠ [])
    (hdisj : ∀ a ∈ rep, a ∉ pat) :
    ∀ (n : Nat) (s q : List Char), s.length ≤ n → q ≠ [] → (∀ a ∈ q, a ∈ pat) →
      isPre q (replaceAll pat rep s) = true → isPre q s = true := by
  intro n
  induction n with
  | zero =>
    intro s q hs hq _ hpre
    have : s = [] := List.length_eq_zero.mp (Nat.le_zero.mp hs)
    subst this
    cases q with
    | nil => exact absurd rfl hq
    | cons q0 q' => simp [replaceAll, replaceSkip, isPre] at hpre
  | succ n ih =>
    intro s q hs hq hsub hpre
    cases s with
    | nil =>
      cases q with
      | nil => exact absurd rfl hq
      | cons q0 q' => simp [replaceAll, replaceSkip, isPre] at hpre
    | cons c rest =>
      rw [replaceAll_cons] at hpre
      by_cases hm : (isPre pat (c :: rest) && !pat.isEmpty) = true
      · rw [if_pos hm] at hpre
        cases q with
        | nil => exact absurd rfl hq
        | cons q0 q' =>
          cases rep with
          | nil => exact absurd rfl hrep
          | cons r rep' =>
            simp only [List.cons_append, isPre, Bool.and_eq_true, beq_iff_eq] at hpre
            have hq0 : q0 ∈ pat := hsub q0 (List.mem_cons_self q0 q')
            have hr : r ∉ pat := hdisj r (List.mem_cons_self r rep')
            exact absurd (hpre.1 ▸ hq0) hr
      · rw [if_neg hm] at hpre
        cases q with
        | nil => exact absurd rfl hq
        | cons q0 q' =>
          simp only [isPre, Bool.and_eq_true, beq_iff_eq] at hpre
          obtain ⟨hq0c, hpre'⟩ := hpre
          cases q' with
          | nil => simp [isPre, hq0c]
          | cons q1 q'' =>
            have hlen : rest.length ≤ n := Nat.le_of_succ_le_succ (by simpa using hs)
            have hsub' : ∀ a ∈ q1 :: q'', a ∈ pat := fun a ha =>
              hsub a (List.mem_cons_of_mem q0 ha)
            have := ih rest (q1 :: q'') hlen (by simp) hsub' hpre'
            simp [isPre, hq0c, this]

theorem occurs_append_cases (pat : List Char) (hpat : pat ≠ []) :
    ∀ u v, occurs pat (u ++ v) = true → (∃ a ∈ pat, a ∈ u) ∨ occurs pat v = true := by
  intro u
  induction u with
  | nil => intro v h; right; simpa using h
  | cons a u' ih =>
    intro v h
    rw [List.cons_append] at h
    rcases Bool.or_eq_true_iff.mp h with hp | ho
    · left
      cases pat with
      | nil => exact absurd rfl hpat
      | cons p0 pr =>
        simp only [isPre, Bool.and_eq_true, beq_iff_eq] at hp
        exact ⟨p0, List.mem_cons_self p0 pr, hp.1 ▸ List.mem_cons_self a u'⟩
    · rcases ih v ho with ⟨b, hb1, hb2⟩ | h''
      · exact Or.inl ⟨b, hb1, List.mem_cons_of_mem a hb2⟩
      · exact Or.inr h''

theorem occurs_replaceAll (pat rep : List Char) (hpat : pat ≠ []) (hrep : rep ≠ [])
    (hdisj : ∀ a ∈ rep, a ∉ pat) :
    ∀ (n : Nat) (s : List Char), s.length ≤ n →
      occurs pat (replaceAll pat rep s) = false := by
  intro n
  induction n with
  | zero =>
    intro s hs
    have : s = [] := List.length_eq_zero.mp (Nat.le_zero.mp hs)
    subst this
    show occurs pat [] = false
    simpa [occurs] using hpat
  | succ n ih =>
    intro s hs
    cases s with
    | nil =>
      show occurs pat [] = false
      simpa [occurs] using hpat
    | cons c rest =>
      rw [replaceAll_cons]
      by_cases hm : (isPre pat (c :: rest) && !pat.isEmpty) = true
      · rw [if_pos hm]
        by_contra hocc
        have hocc' : occurs pat (rep ++ replaceAll pat rep (rest.drop (pat.length - 1))) = true :=
          Bool.of_not_eq_false hocc
        rcases occurs_append_cases pat hpat _ _ hocc' with ⟨a, ha1, ha2⟩ | h''
        · exact hdisj a ha2 ha1
        · have hlen : (rest.drop (pat.length - 1)).length ≤ n := by
            have h1 := List.length_drop (pat.length - 1) rest
            have h2 : rest.length ≤ n := Nat.le_of_succ_le_succ (by simpa using hs)
            omega
          exact absurd h'' (by rw [ih _ hlen]; simp)
      · rw [if_neg hm]
        have hrest : rest.length ≤ n := Nat.le_of_succ_le_succ (by simpa using hs)
        have hocc_rest : occurs pat (replaceAll pat rep rest) = false := ih rest hrest
        have hpre_false : isPre pat (c :: replaceAll pat rep rest) = false := by
          by_contra hp
          have hp' : isPre pat (c :: replaceAll pat rep rest) = true := Bool.of_not_eq_false hp
          cases pat with
          | nil => exact absurd rfl hpat
          | cons p0 p' =>
            simp only [isPre, Bool.and_eq_true, beq_iff_eq] at hp'
            obtain ⟨hp0, hp'tail⟩ := hp'
            have hnotmatch : isPre (p0 :: p') (c :: rest) = false := by
              rcases Bool.and_eq_false_iff.mp (Bool.eq_false_iff.mpr hm) with h1 | h2
              · exact h1
              · simp at h2
            cases p' with
            | nil =>
              rw [hp0] at hnotmatch
              simp [isPre] at hnotmatch
            | cons p1 p'' =>
              have hsub : ∀ a ∈ p1 :: p'', a ∈ p0 :: p1 :: p'' := by
                intro a ha
                exact List.mem_cons_of_mem p0 ha
              have := isPre_replaceAll (p0 :: p1 :: p'') rep hrep hdisj n rest
                (p1 :: p'') hrest (by simp) hsub hp'tail
              rw [hp0] at hnotmatch
              simp [isPre, this] at hnotmatch
        show (isPre pat (c :: replaceAll pat rep rest) || occurs pat (replaceAll pat rep rest)) = false
        rw [hpre_false, hocc_rest]
        rfl

-- ---------------------------------------------------------------------------
-- Claim C2
-- ---------------------------------------------------------------------------

/-- C2 counterexample: with token `"Dz"` and a transport exception whose
message is `"Dzz"` (the token occurs verbatim in it), the logged line is
`Request Failed [...]: REDACTEDz` — the single left-to-right substitution
pass recreates the token across the boundary between the marker's final
`D` and the following original `z`, so the logged message still contains
the token as a substring. -/
theorem c2_counterexample :
    cfgDz.token ≠ "" ∧
    strOccurs cfgDz.token "Dzz" = true ∧
    (callAPI cfgDz "/api/dhcp/leases/list" [] (.raised "Dzz")).2 =
      some "Request Failed [/api/dhcp/leases/list]: REDACTEDz" ∧
    strOccurs cfgDz.token "Request Failed [/api/dhcp/leases/list]: REDACTEDz" = true := by
  refine ⟨by decide, by decide, rfl, by decide⟩

/-- C2 (amended): both log sites pass the exception text through the same
substitution step `sanitize`, which replaces every (leftmost,
non-overlapping) occurrence of the non-empty token by `REDACTED` in a
single pass. The sanitized text is guaranteed free of the token whenever
the token shares no character with the marker `REDACTED`; otherwise a
replacement boundary can recreate the token (see the counterexample). -/
theorem c2_sanitize_no_token (token msg : String) (h1 : token ≠ "")
    (h2 : ∀ a ∈ redactMarker.data, a ∉ token.data) :
    strOccurs token (sanitize token msg) = false := by
  have hd : token.data ≠ [] := by
    intro h
    apply h1
    cases token with
    | mk l =>
      simp only [String.data] at h
      subst h
      rfl
  have hlen : token.length > 0 := by
    cases token with
    | mk l =>
      have : l ≠ [] := hd
      simpa [String.length] using List.length_pos.mpr this
  show occurs token.data (sanitize token msg).data = false
  unfold sanitize
  rw [if_pos hlen]
  exact occurs_replaceAll token.data redactMarker.data hd (by decide) h2
    msg.data.length msg.data le_rfl

/-- C2 witness: the token `"secret"` shares no character with `REDACTED`;
sanitizing a message containing it leaves no occurrence. -/
theorem c2_witness :
    ("secret" : String) ≠ "" ∧
    strOccurs "secret" "error: token=secret rejected" = true ∧
    strOccurs "secret" (sanitize "secret" "error: token=secret rejected") = false :=
  ⟨by decide, by decide,
   c2_sanitize_no_token "secret" "error: token=secret rejected" (by decide) (by decide)⟩

-- ---------------------------------------------------------------------------
-- Structure of `collect` and claim C4
-- ---------------------------------------------------------------------------

theorem Gen.mem_seq {g h : Gen} {f : Family} (hm : f ∈ (g.seq h).fams) :
    f ∈ g.fams ∨ f ∈ h.fams := by
  unfold Gen.seq at hm
  cases hg : g.err with
  | none => rw [hg] at hm; exact List.mem_append.mp hm
  | some e => rw [hg] at hm; exact Or.inl hm

theorem statsGen_eq (cfg : Config) (hr : HttpResult) :
    statsGen cfg hr =
      (match pyGetD (callAPI cfg "/api/dashboard/stats/get"
          [("type", cfg.statsRange), ("utc", "true")] hr).1 "stats" (.obj []) with
       | .error e =>
         ⟨[], (callAPI cfg "/api/dashboard/stats/get"
           [("type", cfg.statsRange), ("utc", "true")] hr).2.toList, some e⟩
       | .ok stats =>
         (Gen.mk [upFamily cfg stats]
           (callAPI cfg "/api/dashboard/stats/get"
             [("type", cfg.statsRange), ("utc", "true")] hr).2.toList none).seq
           (statsBlockGen cfg (callAPI cfg "/api/dashboard/stats/get"
             [("type", cfg.statsRange), ("utc", "true")] hr).1 stats)) := rfl

theorem preTop_fams_decomp (cfg : Config) (up : Upstream) :
    ∃ r, (preTopGen cfg up).fams = (statsGen cfg up.statsHr).fams ++ r := by
  obtain ⟨r3, h3⟩ := Gen.seq_fams_ex ((statsGen cfg up.statsHr).seq (zonesGen cfg up.zonesHr))
    (dhcpGen cfg up.dhcpHr)
  obtain ⟨r4, h4⟩ := Gen.seq_fams_ex (statsGen cfg up.statsHr) (zonesGen cfg up.zonesHr)
  refine ⟨r4 ++ r3, ?_⟩
  show (((statsGen cfg up.statsHr).seq (zonesGen cfg up.zonesHr)).seq (dhcpGen cfg up.dhcpHr)).fams = _
  rw [h3, h4, List.append_assoc]

theorem collect_fams_decomp (cfg : Config) (up : Upstream) (t0 t1 : ℚ) :
    ∃ r, (collect cfg up t0 t1).fams = (statsGen cfg up.statsHr).fams ++ r := by
  obtain ⟨r1, h1⟩ := Gen.seq_fams_ex
    ((preTopGen cfg up).seq (topGen cfg up.topClientsHr up.topDomainsHr up.topBlockedHr))
    ⟨[durationFamily cfg (t1 - t0)], [], none⟩
  obtain ⟨r2, h2⟩ := Gen.seq_fams_ex (preTopGen cfg up)
    (topGen cfg up.topClientsHr up.topDomainsHr up.topBlockedHr)
  obtain ⟨r0, h0⟩ := preTop_fams_decomp cfg up
  refine ⟨r0 ++ r2 ++ r1, ?_⟩
  show (((preTopGen cfg up).seq (topGen cfg up.topClientsHr up.topDomainsHr up.topBlockedHr)).seq
    ⟨[durationFamily cfg (t1 - t0)], [], none⟩).fams = _
  rw [h1, h2, h0]
  simp [List.append_assoc]

/-- C4 counterexample: a dashboard-stats payload that is non-empty but has
no `stats` field (here `{"foo": 1}`) yields a reachability gauge of 0, not
1 as the claim requires: the code tests the truthiness of
`stats_data.get("stats", {})`, not of the payload. -/
theorem c4_counterexample :
    pyTruthy (callAPI cfgEx "/api/dashboard/stats/get"
      [("type", cfgEx.statsRange), ("utc", "true")] upC4.statsHr).1 = true ∧
    (collect cfgEx upC4 0 1).fams.head? = some (upFamily cfgEx (JVal.obj [])) ∧
    (upFamily cfgEx (JVal.obj [])).samples = [⟨[.str cfgEx.serverLabel], .gauge 0⟩] := by
  refine ⟨by decide, rfl, rfl⟩

/-- C4 (amended): whenever the `stats_data.get("stats", {})` access does
not raise (in particular whenever the payload is a dict, which includes
the empty sentinel of a failed call), the reachability gauge is the first
family emitted, with the single label `server` and value 1 exactly when
the `stats` object inside the payload is truthy (non-empty), else 0. -/
theorem c4_up_gauge_first (cfg : Config) (up : Upstream) (t0 t1 : ℚ) (stats : JVal)
    (h : pyGetD (callAPI cfg "/api/dashboard/stats/get"
      [("type", cfg.statsRange), ("utc", "true")] up.statsHr).1 "stats" (.obj []) = .ok stats) :
    (collect cfg up t0 t1).fams.head? = some (upFamily cfg stats) ∧
    (upFamily cfg stats).labelNames = ["server"] ∧
    (upFamily cfg stats).samples =
      [⟨[.str cfg.serverLabel], .gauge (if pyTruthy stats then 1 else 0)⟩] := by
  refine ⟨?_, rfl, rfl⟩
  obtain ⟨r, hrr⟩ := collect_fams_decomp cfg up t0 t1
  have hs : (statsGen cfg up.statsHr).fams = upFamily cfg stats :: (statsBlockGen cfg
      (callAPI cfg "/api/dashboard/stats/get"
        [("type", cfg.statsRange), ("utc", "true")] up.statsHr).1 stats).fams := by
    rw [statsGen_eq, h]
    rfl
  rw [hrr, hs]
  rfl

/-- C4 witness: the `{"foo": 1}` cycle instantiates the amended claim with
a falsy `stats` object; the reachability gauge still comes first, with
value 0. -/
theorem c4_witness :
    (collect cfgEx upC4 0 1).fams.head? = some (upFamily cfgEx (JVal.obj [])) ∧
    (upFamily cfgEx (JVal.obj [])).samples =
      [⟨[.str cfgEx.serverLabel], .gauge (if pyTruthy (JVal.obj []) then 1 else 0)⟩] :=
  ⟨(c4_up_gauge_first cfgEx upC4 0 1 (JVal.obj []) rfl).1,
   (c4_up_gauge_first cfgEx upC4 0 1 (JVal.obj []) rfl).2.2⟩

-- ---------------------------------------------------------------------------
-- Stats-block lemmas and claim C5
-- ---------------------------------------------------------------------------

theorem pyFloatE_isOk {v : JVal} (h : (pyFloatE v).isOk = true) :
    pyFloatE v = .ok (floatOr0 v) := by
  cases hv : pyFloatE v with
  | ok x => simp [floatOr0, hv]
  | error e => rw [hv] at h; simp [Except.isOk, Except.toBool] at h

theorem exceptMap_congr_ok {α β : Type} (f : α → Except String β) (g : α → β) :
    ∀ l : List α, (∀ x ∈ l, f x = .ok (g x)) → exceptMap f l = .ok (l.map g) := by
  intro l
  induction l with
  | nil => intro _; rfl
  | cons x rest ih =>
    intro h
    have hx : f x = .ok (g x) := h x (List.mem_cons_self x rest)
    have hrest := ih (fun y hy => h y (List.mem_cons_of_mem x hy))
    rw [show exceptMap f (x :: rest) =
      (match f x with
       | .error e => .error e
       | .ok y =>
         match exceptMap f rest with
         | .error e => .error e
         | .ok ys => .ok (y :: ys)) from rfl]
    rw [hx, hrest]
    rfl

theorem exceptMap_ok_mem {α β : Type} (f : α → Except String β) :
    ∀ (l : List α) (ys : List β), exceptMap f l = .ok ys →
      ∀ y ∈ ys, ∃ x ∈ l, f x = .ok y := by
  intro l
  induction l with
  | nil =>
    intro ys h y hy
    rw [show exceptMap f [] = .ok ([] : List β) from rfl] at h
    injection h with h'
    subst h'
    exact absurd hy (by simp)
  | cons x rest ih =>
    intro ys h y hy
    rw [show exceptMap f (x :: rest) =
      (match f x with
       | .error e => .error e
       | .ok y =>
         match exceptMap f rest with
         | .error e => .error e
         | .ok ys => .ok (y :: ys)) from rfl] at h
    cases hx : f x with
    | error e => rw [hx] at h; exact absurd h (by simp)
    | ok z =>
      rw [hx] at h
      cases hrest : exceptMap f rest with
      | error e => rw [hrest] at h; exact absurd h (by simp)
      | ok zs =>
        rw [hrest] at h
        injection h with h'
        subst h'
        rcases List.mem_cons.mp hy with hy1 | hy2
        · exact ⟨x, List.mem_cons_self x rest, hy1 ▸ hx⟩
        · obtain ⟨x', hx1, hx2⟩ := ih zs hrest y hy2
          exact ⟨x', List.mem_cons_of_mem x hx1, hx2⟩

theorem qSampleE_floatable (cfg : Config) (kvs : List (String × JVal)) :
    ∀ m : List (String × String), floatableFields kvs (m.map Prod.fst) →
      exceptMap (qSampleE cfg (.obj kvs)) m =
        .ok (m.map fun p => ⟨[.str cfg.serverLabel, .str p.2], .gauge (floatD kvs p.1)⟩) := by
  intro m hf
  apply exceptMap_congr_ok
  intro p hp
  have hk : (pyFloatE ((lookupJ kvs p.1).getD (.num 0))).isOk = true :=
    hf p.1 (List.mem_map_of_mem Prod.fst hp)
  rw [show qSampleE cfg (.obj kvs) p =
    (match pyFloatE ((lookupJ kvs p.1).getD (.num 0)) with
     | .error e => .error e
     | .ok x => .ok ⟨[.str cfg.serverLabel, .str p.2], .gauge x⟩) from rfl]
  rw [pyFloatE_isOk hk]
  rfl

theorem simpleFamsGo_floatable (cfg : Config) (kvs : List (String × JVal)) :
    ∀ m : List (String × String), floatableFields kvs (m.map Prod.snd) →
      simpleFamsGo cfg (.obj kvs) m = (m.map (simpleFamOf cfg kvs), none) := by
  intro m
  induction m with
  | nil => intro _; rfl
  | cons p rest ih =>
    intro hf
    obtain ⟨metric, key⟩ := p
    have hk : (pyFloatE ((lookupJ kvs key).getD (.num 0))).isOk = true :=
      hf key (by simp)
    have hrest : floatableFields kvs (rest.map Prod.snd) := fun k' hk' => hf k' (by simp [hk'])
    rw [show simpleFamsGo cfg (.obj kvs) ((metric, key) :: rest) =
      (match pyFloatE ((lookupJ kvs key).getD (.num 0)) with
       | .error e => ([], some e)
       | .ok x =>
         let (fs, err) := simpleFamsGo cfg (.obj kvs) rest
         (⟨metric, "From Dashboard Stats: " ++ key, ["server"],
           [⟨[.str cfg.serverLabel], .gauge x⟩]⟩ :: fs, err)) from rfl]
    rw [pyFloatE_isOk hk, ih hrest]
    rfl

theorem statsBlockGen_decomp (cfg : Config) (sd : JVal) (kvs : List (String × JVal))
    (hne : kvs ≠ []) (hs : floatableFields kvs (simpleMap.map Prod.snd))
    (hq : floatableFields kvs (qMap.map Prod.fst)) :
    ∃ r, (statsBlockGen cfg sd (.obj kvs)).fams =
      (simpleMap.map (simpleFamOf cfg kvs) ++ [qFamilyOf cfg kvs]) ++ r := by
  have hqf : qFamilyE cfg (.obj kvs) = .ok (qFamilyOf cfg kvs) := by
    unfold qFamilyE
    rw [qSampleE_floatable cfg kvs qMap hq]
    rfl
  cases kvs with
  | nil => exact absurd rfl hne
  | cons a t =>
    have hblock : statsBlockGen cfg sd (.obj (a :: t)) =
        (((Gen.mk (simpleMap.map (simpleFamOf cfg (a :: t)) ++ [qFamilyOf cfg (a :: t)]) [] none).seq
          (genOfE (chartStep cfg "queryResponseChartData" "technitium_dns_response_type_total"
            "Response types in the current stats window" "type" sd))).seq
          (genOfE (chartStep cfg "queryTypeChartData" "technitium_dns_query_type_total"
            "DNS query types in the current stats window" "qtype" sd))).seq
          (genOfE (chartStep cfg "protocolTypeChartData" "technitium_dns_protocol_queries"
            "Queries by protocol in the current stats window" "protocol" sd)) := by
      unfold statsBlockGen
      rw [simpleFamsGo_floatable cfg (a :: t) simpleMap hs, hqf]
      rfl
    obtain ⟨r1, h1⟩ := Gen.seq_fams_ex
      (((Gen.mk (simpleMap.map (simpleFamOf cfg (a :: t)) ++ [qFamilyOf cfg (a :: t)]) [] none).seq
        (genOfE (chartStep cfg "queryResponseChartData" "technitium_dns_response_type_total"
          "Response types in the current stats window" "type" sd))).seq
        (genOfE (chartStep cfg "queryTypeChartData" "technitium_dns_query_type_total"
          "DNS query types in the current stats window" "qtype" sd)))
      (genOfE (chartStep cfg "protocolTypeChartData" "technitium_dns_protocol_queries"
        "Queries by protocol in the current stats window" "protocol" sd))
    obtain ⟨r2, h2⟩ := Gen.seq_fams_ex
      ((Gen.mk (simpleMap.map (simpleFamOf cfg (a :: t)) ++ [qFamilyOf cfg (a :: t)]) [] none).seq
        (genOfE (chartStep cfg "queryResponseChartData" "technitium_dns_response_type_total"
          "Response types in the current stats window" "type" sd)))
      (genOfE (chartStep cfg "queryTypeChartData" "technitium_dns_query_type_total"
        "DNS query types in the current stats window" "qtype" sd))
    obtain ⟨r3, h3⟩ := Gen.seq_fams_ex
      (Gen.mk (simpleMap.map (simpleFamOf cfg (a :: t)) ++ [qFamilyOf cfg (a :: t)]) [] none)
      (genOfE (chartStep cfg "queryResponseChartData" "technitium_dns_response_type_total"
        "Response types in the current stats window" "type" sd))
    refine ⟨r3 ++ r2 ++ r1, ?_⟩
    rw [hblock, h1, h2, h3]
    simp [List.append_assoc]

/-- C5 (as claimed, under the implicit well-typedness of the counter
fields): for every cycle whose dashboard payload carries a non-empty
`stats` object with `float()`-convertible counters, `collect` emits the
query-category family right after the seven simple gauges, with exactly
ten samples, one per fixed category in `qMap` order, each valued at the
corresponding counter field and 0 when the field is absent. -/
theorem c5_query_category_family (cfg : Config) (up : Upstream) (t0 t1 : ℚ)
    (kvs : List (String × JVal))
    (h : pyGetD (callAPI cfg "/api/dashboard/stats/get"
      [("type", cfg.statsRange), ("utc", "true")] up.statsHr).1 "stats" (.obj []) = .ok (.obj kvs))
    (hne : kvs ≠ [])
    (hs : floatableFields kvs (simpleMap.map Prod.snd))
    (hq : floatableFields kvs (qMap.map Prod.fst)) :
    (∃ rest, (collect cfg up t0 t1).fams =
      upFamily cfg (.obj kvs) ::
        (simpleMap.map (simpleFamOf cfg kvs) ++ qFamilyOf cfg kvs :: rest)) ∧
    (qFamilyOf cfg kvs).samples =
      qMap.map (fun p => ⟨[.str cfg.serverLabel, .str p.2], .gauge (floatD kvs p.1)⟩) ∧
    (qFamilyOf cfg kvs).samples.length = 10 := by
  refine ⟨?_, rfl, rfl⟩
  obtain ⟨r, hrr⟩ := collect_fams_decomp cfg up t0 t1
  have hsg : (statsGen cfg up.statsHr).fams = upFamily cfg (.obj kvs) :: (statsBlockGen cfg
      (callAPI cfg "/api/dashboard/stats/get"
        [("type", cfg.statsRange), ("utc", "true")] up.statsHr).1 (.obj kvs)).fams := by
    rw [statsGen_eq, h]
    rfl
  obtain ⟨r', hb⟩ := statsBlockGen_decomp cfg
    (callAPI cfg "/api/dashboard/stats/get"
      [("type", cfg.statsRange), ("utc", "true")] up.statsHr).1 kvs hne hs hq
  refine ⟨r' ++ r, ?_⟩
  rw [hrr, hsg, hb]
  simp [List.append_assoc]

/-- C5 witness: the spec's example payload (`totalQueries=100,
totalNoError=80, totalNxDomain=20`, everything else absent) produces the
ten samples `all=100, no_error=80, servfail=0, nxdomain=20` and 0 for the
remaining categories. -/
theorem c5_witness :
    (∃ rest, (collect cfgEx upC5 0 1).fams =
      upFamily cfgEx (.obj kvsC5) ::
        (simpleMap.map (simpleFamOf cfgEx kvsC5) ++ qFamilyOf cfgEx kvsC5 :: rest)) ∧
    (qFamilyOf cfgEx kvsC5).samples.map (fun s => s.value) =
      [.gauge 100, .gauge 80, .gauge 0, .gauge 20, .gauge 0,
       .gauge 0, .gauge 0, .gauge 0, .gauge 0, .gauge 0] :=
  ⟨(c5_query_category_family cfgEx upC5 0 1 kvsC5 rfl (by simp [kvsC5]) (by decide) (by decide)).1,
   rfl⟩

-- ---------------------------------------------------------------------------
-- Family-shape lemmas shared by the duration and server-label claims
-- ---------------------------------------------------------------------------

theorem qSampleE_server (cfg : Config) (stats : JVal) (p : String × String) (s : Sample)
    (h : qSampleE cfg stats p = .ok s) : s.labels.head? = some (.str cfg.serverLabel) := by
  unfold qSampleE at h
  repeat' split at h
  all_goals (try (exact Except.noConfusion h))
  all_goals (injection h with h'; subst h'; rfl)

theorem chartSampleE_server (cfg : Config) (p : JVal × JVal) (s : Sample)
    (h : chartSampleE cfg p = .ok s) : s.labels.head? = some (.str cfg.serverLabel) := by
  unfold chartSampleE at h
  repeat' split at h
  all_goals (try (exact Except.noConfusion h))
  all_goals (injection h with h'; subst h'; rfl)

theorem zoneSampleE_server (cfg : Config) (z : JVal) (s : Sample)
    (h : zoneSampleE cfg z = .ok s) : s.labels.head? = some (.str cfg.serverLabel) := by
  unfold zoneSampleE at h
  repeat' split at h
  all_goals (try (exact Except.noConfusion h))
  all_goals (injection h with h'; subst h'; rfl)

theorem topSampleE_server (cfg : Config) (st : String) (item : JVal) (s : Sample)
    (h : topSampleE cfg st item = .ok s) : s.labels.head? = some (.str cfg.serverLabel) := by
  unfold topSampleE at h
  repeat' split at h
  all_goals (try (exact Except.noConfusion h))
  all_goals (injection h with h'; subst h'; rfl)

theorem dhcpSamplesT_server (cfg : Config) (sk : PyKey) :
    ∀ m : List (PyKey × Nat), ∀ s ∈ dhcpSamplesT cfg sk m,
      s.labels.head? = some (.str cfg.serverLabel) := by
  intro m
  induction m with
  | nil => intro s hs; exact absurd hs (by simp [dhcpSamplesT])
  | cons p rest ih =>
    obtain ⟨t, n⟩ := p
    intro s hs
    rcases List.mem_cons.mp hs with h1 | h2
    · subst h1; rfl
    · exact ih s h2

theorem dhcpSamplesS_server (cfg : Config) :
    ∀ counts : List (PyKey × List (PyKey × Nat)), ∀ s ∈ dhcpSamplesS cfg counts,
      s.labels.head? = some (.str cfg.serverLabel) := by
  intro counts
  induction counts with
  | nil => intro s hs; exact absurd hs (by simp [dhcpSamplesS])
  | cons p rest ih =>
    obtain ⟨sk, m⟩ := p
    intro s hs
    rcases List.mem_append.mp hs with h1 | h2
    · exact dhcpSamplesT_server cfg sk m s h1
    · exact ih s h2

theorem genOfE_mem {e : Except String (List Family)} {f : Family}
    (hm : f ∈ (genOfE e).fams) : ∃ fs, e = .ok fs ∧ f ∈ fs := by
  cases e with
  | ok fs => exact ⟨fs, rfl, hm⟩
  | error m => exact absurd hm (by simp [genOfE])

theorem chartStep_famOK (cfg : Config) (ck mn hp ln : String) (sd : JVal)
    (hmn : mn ≠ "technitium_scrape_duration_seconds") :
    ∀ fs, chartStep cfg ck mn hp ln sd = .ok fs → ∀ f ∈ fs, famOK cfg f := by
  intro fs h f hf
  unfold chartStep at h
  repeat' split at h
  all_goals (try (exact Except.noConfusion h))
  all_goals (injection h with h'; subst h')
  all_goals (try (exact absurd hf (List.not_mem_nil f)))
  rename_i samples hsm
  have hfam := List.mem_singleton.mp hf
  subst hfam
  refine ⟨hmn, ?_⟩
  intro s hs
  obtain ⟨x, _, hx⟩ := exceptMap_ok_mem (chartSampleE cfg) _ samples hsm s hs
  exact chartSampleE_server cfg x s hx

theorem qFamilyE_famOK (cfg : Config) (stats : JVal) :
    ∀ qf, qFamilyE cfg stats = .ok qf → famOK cfg qf := by
  intro qf h
  unfold qFamilyE at h
  split at h
  · injection h
  · injection h with h'
    subst h'
    rename_i ss hss
    refine ⟨?_, ?_⟩
    · show ("technitium_dns_queries_window" : String) ≠ "technitium_scrape_duration_seconds"
      decide
    · intro s hs
      obtain ⟨x, _, hx⟩ := exceptMap_ok_mem (qSampleE cfg stats) _ ss hss s hs
      exact qSampleE_server cfg stats x s hx

theorem simpleFamsGo_famOK (cfg : Config) (stats : JVal) :
    ∀ m : List (String × String),
      (∀ p ∈ m, p.1 ≠ "technitium_scrape_duration_seconds") →
      ∀ f ∈ (simpleFamsGo cfg stats m).1, famOK cfg f := by
  intro m
  induction m with
  | nil => intro _ f hf; exact absurd hf (by simp [simpleFamsGo])
  | cons p rest ih =>
    obtain ⟨metric, key⟩ := p
    intro hn f hf
    have hstep : simpleFamsGo cfg stats ((metric, key) :: rest) =
        (match pyGetD stats key (.num 0) with
         | .error e => ([], some e)
         | .ok v =>
           match pyFloatE v with
           | .error e => ([], some e)
           | .ok x =>
             (⟨metric, "From Dashboard Stats: " ++ key, ["server"],
               [⟨[.str cfg.serverLabel], .gauge x⟩]⟩ :: (simpleFamsGo cfg stats rest).1,
              (simpleFamsGo cfg stats rest).2)) := rfl
    rw [hstep] at hf
    cases hg : pyGetD stats key (.num 0) with
    | error e => simp only [hg] at hf; exact absurd hf (List.not_mem_nil f)
    | ok v =>
      simp only [hg] at hf
      cases hx : pyFloatE v with
      | error e => simp only [hx] at hf; exact absurd hf (List.not_mem_nil f)
      | ok x =>
        simp only [hx] at hf
        rcases List.mem_cons.mp hf with h1 | h2
        · subst h1
          refine ⟨hn (metric, key) (List.mem_cons_self _ _), ?_⟩
          intro s hs
          rw [List.mem_singleton.mp hs]
          rfl
        · exact ih (fun q hq => hn q (List.mem_cons_of_mem _ hq)) f h2

theorem genOfBody_mem {b : Except String (List Family)} {lg : List String} {f : Family}
    (hm : f ∈ (genOfBody b lg).fams) : ∃ fs, b = .ok fs ∧ f ∈ fs := by
  cases b with
  | ok fs => exact ⟨fs, rfl, hm⟩
  | error m => exact absurd hm (by simp [genOfBody])

theorem zonesBodyE_famOK (cfg : Config) (zd : JVal) :
    ∀ fs, zonesBodyE cfg zd = .ok fs → ∀ f ∈ fs, famOK cfg f := by
  intro fs h f hf
  unfold zonesBodyE at h
  repeat' split at h
  all_goals (try (exact Except.noConfusion h))
  all_goals (injection h with h'; subst h')
  all_goals (try (exact absurd hf (List.not_mem_nil f)))
  rename_i samples hsm
  have hfam := List.mem_singleton.mp hf
  subst hfam
  refine ⟨?_, ?_⟩
  · show ("technitium_zone" : String) ≠ "technitium_scrape_duration_seconds"
    decide
  · intro s hs
    obtain ⟨x, _, hx⟩ := exceptMap_ok_mem (zoneSampleE cfg) _ samples hsm s hs
    exact zoneSampleE_server cfg x s hx

theorem dhcpBodyE_famOK (cfg : Config) (dd : JVal) :
    ∀ fs, dhcpBodyE cfg dd = .ok fs → ∀ f ∈ fs, famOK cfg f := by
  intro fs h f hf
  unfold dhcpBodyE at h
  repeat' split at h
  all_goals (try (exact Except.noConfusion h))
  all_goals (injection h with h'; subst h')
  all_goals (try (exact absurd hf (List.not_mem_nil f)))
  have hfam := List.mem_singleton.mp hf
  subst hfam
  refine ⟨?_, ?_⟩
  · show ("technitium_dhcp_leases_total" : String) ≠ "technitium_scrape_duration_seconds"
    decide
  · intro s hs
    exact dhcpSamplesS_server cfg _ s hs

theorem topBodyE_famOK (cfg : Config) (st mn : String) (lns : List String) (jk : String)
    (data : JVal) (hmn : mn ≠ "technitium_scrape_duration_seconds") :
    ∀ fs, topBodyE cfg st mn lns jk data = .ok fs → ∀ f ∈ fs, famOK cfg f := by
  intro fs h f hf
  unfold topBodyE at h
  repeat' split at h
  all_goals (try (exact Except.noConfusion h))
  all_goals (injection h with h'; subst h')
  all_goals (try (exact absurd hf (List.not_mem_nil f)))
  rename_i samples hsm
  have hfam := List.mem_singleton.mp hf
  subst hfam
  refine ⟨hmn, ?_⟩
  intro s hs
  obtain ⟨x, _, hx⟩ := exceptMap_ok_mem (topSampleE cfg st) _ samples hsm s hs
  exact topSampleE_server cfg st x s hx

theorem statsBlockGen_famOK (cfg : Config) (sd stats : JVal) :
    ∀ f ∈ (statsBlockGen cfg sd stats).fams, famOK cfg f := by
  intro f hf
  unfold statsBlockGen at hf
  by_cases ht : pyTruthy stats = true
  · rw [if_pos ht] at hf
    rcases hsf : simpleFamsGo cfg stats simpleMap with ⟨sfams, serr⟩
    simp only [hsf] at hf
    have h1 : (simpleFamsGo cfg stats simpleMap).1 = sfams := by rw [hsf]
    have hsimple : ∀ g ∈ sfams, famOK cfg g := by
      intro g hg
      exact simpleFamsGo_famOK cfg stats simpleMap (by decide) g (h1 ▸ hg)
    cases serr with
    | some e => exact hsimple f hf
    | none =>
      cases hq : qFamilyE cfg stats with
      | error e =>
        simp only [hq] at hf
        exact hsimple f hf
      | ok qf =>
        simp only [hq] at hf
        rcases Gen.mem_seq hf with h2 | h2
        rotate_left
        · obtain ⟨fs3, he3, hm3⟩ := genOfE_mem h2
          exact chartStep_famOK cfg _ _ _ _ sd (by decide) fs3 he3 f hm3
        rcases Gen.mem_seq h2 with h3 | h3
        rotate_left
        · obtain ⟨fs2, he2, hm2⟩ := genOfE_mem h3
          exact chartStep_famOK cfg _ _ _ _ sd (by decide) fs2 he2 f hm2
        rcases Gen.mem_seq h3 with h4 | h4
        rotate_left
        · obtain ⟨fs1, he1, hm1⟩ := genOfE_mem h4
          exact chartStep_famOK cfg _ _ _ _ sd (by decide) fs1 he1 f hm1
        rcases List.mem_append.mp h4 with h5 | h5
        · exact hsimple f h5
        · have := List.mem_singleton.mp h5
          subst this
          exact qFamilyE_famOK cfg stats f hq
  · rw [if_neg ht] at hf
    exact absurd hf (List.not_mem_nil f)

theorem statsGen_famOK (cfg : Config) (hr : HttpResult) :
    ∀ f ∈ (statsGen cfg hr).fams, famOK cfg f := by
  intro f hf
  rw [statsGen_eq] at hf
  cases hst : pyGetD (callAPI cfg "/api/dashboard/stats/get"
      [("type", cfg.statsRange), ("utc", "true")] hr).1 "stats" (.obj []) with
  | error e =>
    simp only [hst] at hf
    exact absurd hf (List.not_mem_nil f)
  | ok stats =>
    simp only [hst] at hf
    rcases Gen.mem_seq hf with h1 | h1
    · have := List.mem_singleton.mp h1
      subst this
      refine ⟨?_, ?_⟩
      · show ("technitium_up" : String) ≠ "technitium_scrape_duration_seconds"
        decide
      · intro s hs
        rw [List.mem_singleton.mp hs]
        rfl
    · exact statsBlockGen_famOK cfg _ stats f h1

theorem zonesGen_famOK (cfg : Config) (hr : HttpResult) :
    ∀ f ∈ (zonesGen cfg hr).fams, famOK cfg f := by
  intro f hf
  obtain ⟨fs, he, hm⟩ := genOfBody_mem hf
  exact zonesBodyE_famOK cfg _ fs he f hm

theorem dhcpGen_famOK (cfg : Config) (hr : HttpResult) :
    ∀ f ∈ (dhcpGen cfg hr).fams, famOK cfg f := by
  intro f hf
  obtain ⟨fs, he, hm⟩ := genOfBody_mem hf
  exact dhcpBodyE_famOK cfg _ fs he f hm

theorem topStep_mem (cfg : Config) (st mn : String) (lns : List String) (jk : String)
    (hr : HttpResult) {f : Family} (hf : f ∈ (topStep cfg st mn lns jk hr).1) :
    ∃ fs, topBodyE cfg st mn lns jk
      (callAPI cfg "/api/dashboard/stats/getTop"
        [("statsType", st), ("limit", toString cfg.topLimit)] hr).1 = .ok fs ∧ f ∈ fs := by
  unfold topStep at hf
  cases hb : topBodyE cfg st mn lns jk
    (callAPI cfg "/api/dashboard/stats/getTop"
      [("statsType", st), ("limit", toString cfg.topLimit)] hr).1 with
  | ok fs =>
    simp only [hb] at hf
    exact ⟨fs, rfl, hf⟩
  | error e =>
    simp only [hb] at hf
    exact absurd hf (List.not_mem_nil f)

theorem topGen_famOK (cfg : Config) (h1 h2 h3 : HttpResult) :
    ∀ f ∈ (topGen cfg h1 h2 h3).fams, famOK cfg f := by
  intro f hf
  rcases List.mem_append.mp hf with hA | h3m
  · rcases List.mem_append.mp hA with h1m | h2m
    · obtain ⟨fs, he, hm⟩ := topStep_mem cfg _ _ _ _ h1 h1m
      exact topBodyE_famOK cfg _ _ _ _ _ (by decide) fs he f hm
    · obtain ⟨fs, he, hm⟩ := topStep_mem cfg _ _ _ _ h2 h2m
      exact topBodyE_famOK cfg _ _ _ _ _ (by decide) fs he f hm
  · obtain ⟨fs, he, hm⟩ := topStep_mem cfg _ _ _ _ h3 h3m
    exact topBodyE_famOK cfg _ _ _ _ _ (by decide) fs he f hm

theorem preTopGen_famOK (cfg : Config) (up : Upstream) :
    ∀ f ∈ (preTopGen cfg up).fams, famOK cfg f := by
  intro f hf
  rcases Gen.mem_seq hf with h1 | h1
  · rcases Gen.mem_seq h1 with h2 | h2
    · exact statsGen_famOK cfg up.statsHr f h2
    · exact zonesGen_famOK cfg up.zonesHr f h2
  · exact dhcpGen_famOK cfg up.dhcpHr f h1

-- ---------------------------------------------------------------------------
-- Claims C9, C10, C3
-- ---------------------------------------------------------------------------

theorem collect_noerr (cfg : Config) (up : Upstream) (t0 t1 : ℚ)
    (hpre : (preTopGen cfg up).err = none) :
    collect cfg up t0 t1 =
      ⟨(preTopGen cfg up).fams ++
         (topGen cfg up.topClientsHr up.topDomainsHr up.topBlockedHr).fams ++
         [durationFamily cfg (t1 - t0)],
       (preTopGen cfg up).logs ++
         (topGen cfg up.topClientsHr up.topDomainsHr up.topBlockedHr).logs,
       none⟩ := by
  unfold collect
  rw [Gen.seq_none hpre, Gen.seq_none rfl]
  simp

theorem preTop_err_of_collect (cfg : Config) (up : Upstream) (t0 t1 : ℚ)
    (herr : (collect cfg up t0 t1).err = none) : (preTopGen cfg up).err = none := by
  cases hp : (preTopGen cfg up).err with
  | none => rfl
  | some e =>
    have h1 : (preTopGen cfg up).seq
        (topGen cfg up.topClientsHr up.topDomainsHr up.topBlockedHr) = preTopGen cfg up :=
      Gen.seq_some hp
    have h2 : collect cfg up t0 t1 = preTopGen cfg up := by
      unfold collect
      rw [h1]
      exact Gen.seq_some hp
    rw [h2, hp] at herr
    exact Option.noConfusion herr

/-- C9 (amended): in every cycle in which the collection generator runs to
completion without an uncaught type error — upstream call failures never
cause one, but an ok-status response whose `response` payload is not a
dict does (see the counterexample) — the scrape-duration gauge is emitted
exactly once, as the last family, with the single server label and value
`t1 - t0`, the wall-clock seconds between the reading taken before step 1
and the reading taken at emission; the value is non-negative whenever the
wall clock did not step backwards between the two readings. -/
theorem c9_duration_gauge (cfg : Config) (up : Upstream) (t0 t1 : ℚ)
    (herr : (collect cfg up t0 t1).err = none) (hle : t0 ≤ t1) :
    ∃ fs, (collect cfg up t0 t1).fams = fs ++ [durationFamily cfg (t1 - t0)] ∧
      (∀ f ∈ fs, f.name ≠ "technitium_scrape_duration_seconds") ∧
      (durationFamily cfg (t1 - t0)).samples = [⟨[.str cfg.serverLabel], .gauge (t1 - t0)⟩] ∧
      0 ≤ t1 - t0 := by
  have hpre := preTop_err_of_collect cfg up t0 t1 herr
  have hc := collect_noerr cfg up t0 t1 hpre
  refine ⟨(preTopGen cfg up).fams ++
    (topGen cfg up.topClientsHr up.topDomainsHr up.topBlockedHr).fams, ?_, ?_, rfl,
    by linarith⟩
  · rw [hc]
  · intro f hf
    rcases List.mem_append.mp hf with h1 | h1
    · exact (preTopGen_famOK cfg up f h1).1
    · exact (topGen_famOK cfg up.topClientsHr up.topDomainsHr up.topBlockedHr f h1).1

/-- C9 counterexample: a dashboard-stats response with `status: "ok"` and
`response: null` makes `stats_data.get("stats", {})` raise
`AttributeError` out of the generator before anything is yielded — the
cycle emits no duration family (indeed no family at all), refuting
"emitted exactly once per cycle, regardless of failures". -/
theorem c9_counterexample :
    (collect cfgEx upNull 0 1).fams = [] ∧
    (collect cfgEx upNull 0 1).err.isSome = true := by
  exact ⟨rfl, rfl⟩

/-- C9 witness: a completing cycle with clock readings 2 and 5 ends with
the duration family valued 3. -/
theorem c9_witness :
    (∃ fs, (collect cfgEx upC5 2 5).fams = fs ++ [durationFamily cfgEx (5 - 2)] ∧
      (∀ f ∈ fs, f.name ≠ "technitium_scrape_duration_seconds") ∧
      (durationFamily cfgEx (5 - 2)).samples = [⟨[.str cfgEx.serverLabel], .gauge (5 - 2)⟩] ∧
      (0 : ℚ) ≤ 5 - 2) ∧
    (durationFamily cfgEx (5 - 2)).samples = [⟨[.str "srv"], .gauge 3⟩] :=
  ⟨c9_duration_gauge cfgEx upC5 2 5 rfl (by norm_num),
   by rw [show (5 : ℚ) - 2 = 3 by norm_num]; rfl⟩

/-- C10: every sample of every family yielded by `collect` — whatever the
six upstream responses and whether or not the generator later raises —
carries the configured server label as its first positional label value. -/
theorem c10_server_label_first (cfg : Config) (up : Upstream) (t0 t1 : ℚ) :
    ∀ f ∈ (collect cfg up t0 t1).fams, ∀ s ∈ f.samples,
      s.labels.head? = some (.str cfg.serverLabel) := by
  intro f hf s hs
  unfold collect at hf
  rcases Gen.mem_seq hf with h1 | h1
  · rcases Gen.mem_seq h1 with h2 | h2
    · exact (preTopGen_famOK cfg up f h2).2 s hs
    · exact (topGen_famOK cfg up.topClientsHr up.topDomainsHr up.topBlockedHr f h2).2 s hs
  · have := List.mem_singleton.mp h1
    subst this
    rw [List.mem_singleton.mp hs]
    rfl

/-- C10 witness: the reachability sample of a concrete cycle carries the
server label first. -/
theorem c10_witness :
    (Sample.mk [.str "srv"] (.gauge 1)).labels.head? = some (.str cfgEx.serverLabel) :=
  c10_server_label_first cfgEx upC5 0 1 (upFamily cfgEx (.obj kvsC5))
    (List.mem_cons_self _ _) (Sample.mk [.str "srv"] (.gauge 1)) (List.mem_cons_self _ _)

theorem topStep_fail (cfg : Config) (st mn : String) (lns : List String) (jk : String)
    (hr : HttpResult) (h : apiFails hr = true) :
    ∃ lg, topStep cfg st mn lns jk hr = ([], [lg]) := by
  obtain ⟨lg, hl⟩ := callAPI_fail cfg "/api/dashboard/stats/getTop"
    [("statsType", st), ("limit", toString cfg.topLimit)] hr h
  refine ⟨lg, ?_⟩
  unfold topStep
  rw [hl]
  rfl

/-- C3: whenever steps 1–3 of the cycle do not raise an uncaught type
error and exactly one of the three top-N queries fails (a transport
exception, a 4xx/5xx status, a non-JSON or non-dict body, or a non-ok
status) while the other two succeed, no exception escapes the collection
operation; the emitted families are exactly the pre-top families followed
by each top iteration's own families in order (so the two successful
queries' families are exactly what they yield in isolation) followed by
the duration family; the cycle's log stream is the concatenation of each
step's own log lines; and the failing iteration contributes no family but
exactly one error log line. -/
theorem c3_top_failure_isolation (cfg : Config) (up : Upstream) (t0 t1 : ℚ)
    (hpre : (preTopGen cfg up).err = none) (hone : oneTopFails up) :
    (collect cfg up t0 t1).err = none ∧
    (collect cfg up t0 t1).fams =
      (preTopGen cfg up).fams ++
        ((topStep1 cfg up.topClientsHr).1 ++ (topStep2 cfg up.topDomainsHr).1 ++
          (topStep3 cfg up.topBlockedHr).1) ++ [durationFamily cfg (t1 - t0)] ∧
    (collect cfg up t0 t1).logs =
      (preTopGen cfg up).logs ++
        ((topStep1 cfg up.topClientsHr).2 ++ (topStep2 cfg up.topDomainsHr).2 ++
          (topStep3 cfg up.topBlockedHr).2) ∧
    (apiFails up.topClientsHr = true →
      (topStep1 cfg up.topClientsHr).1 = [] ∧ ∃ lg, (topStep1 cfg up.topClientsHr).2 = [lg]) ∧
    (apiFails up.topDomainsHr = true →
      (topStep2 cfg up.topDomainsHr).1 = [] ∧ ∃ lg, (topStep2 cfg up.topDomainsHr).2 = [lg]) ∧
    (apiFails up.topBlockedHr = true →
      (topStep3 cfg up.topBlockedHr).1 = [] ∧ ∃ lg, (topStep3 cfg up.topBlockedHr).2 = [lg]) := by
  have hc := collect_noerr cfg up t0 t1 hpre
  refine ⟨by rw [hc], by rw [hc]; rfl, by rw [hc]; rfl, ?_, ?_, ?_⟩
  · intro h
    obtain ⟨lg, hs⟩ := topStep_fail cfg "TopClients" "technitium_dns_top_client_hits"
      ["server", "client_ip", "client_name"] "topClients" up.topClientsHr h
    exact ⟨by rw [show topStep1 cfg up.topClientsHr = topStep cfg "TopClients"
        "technitium_dns_top_client_hits" ["server", "client_ip", "client_name"]
        "topClients" up.topClientsHr from rfl, hs],
      lg, by rw [show topStep1 cfg up.topClientsHr = topStep cfg "TopClients"
        "technitium_dns_top_client_hits" ["server", "client_ip", "client_name"]
        "topClients" up.topClientsHr from rfl, hs]⟩
  · intro h
    obtain ⟨lg, hs⟩ := topStep_fail cfg "TopDomains" "technitium_dns_top_domain_hits"
      ["server", "domain"] "topDomains" up.topDomainsHr h
    exact ⟨by rw [show topStep2 cfg up.topDomainsHr = topStep cfg "TopDomains"
        "technitium_dns_top_domain_hits" ["server", "domain"]
        "topDomains" up.topDomainsHr from rfl, hs],
      lg, by rw [show topStep2 cfg up.topDomainsHr = topStep cfg "TopDomains"
        "technitium_dns_top_domain_hits" ["server", "domain"]
        "topDomains" up.topDomainsHr from rfl, hs]⟩
  · intro h
    obtain ⟨lg, hs⟩ := topStep_fail cfg "TopBlockedDomains"
      "technitium_dns_top_blocked_domain_hits" ["server", "domain"]
      "topBlockedDomains" up.topBlockedHr h
    exact ⟨by rw [show topStep3 cfg up.topBlockedHr = topStep cfg "TopBlockedDomains"
        "technitium_dns_top_blocked_domain_hits" ["server", "domain"]
        "topBlockedDomains" up.topBlockedHr from rfl, hs],
      lg, by rw [show topStep3 cfg up.topBlockedHr = topStep cfg "TopBlockedDomains"
        "technitium_dns_top_blocked_domain_hits" ["server", "domain"]
        "topBlockedDomains" up.topBlockedHr from rfl, hs]⟩

/-- C3 witness: in a cycle where the top-domains query raises and the
other two top queries succeed with one item each, the cycle completes, the
failing step yields no family but one log line, and the two successful
steps' families are present unchanged. -/
theorem c3_witness :
    (collect cfgEx upC3 0 1).err = none ∧
    (topStep2 cfgEx upC3.topDomainsHr).1 = [] ∧
    (∃ lg, (topStep2 cfgEx upC3.topDomainsHr).2 = [lg]) ∧
    (topStep1 cfgEx upC3.topClientsHr).1 =
      [⟨"technitium_dns_top_client_hits", "Hits for TopClients",
        ["server", "client_ip", "client_name"],
        [⟨[.str "srv", .str "1.2.3.4", .str "pc1"], .gauge 7⟩]⟩] ∧
    (topStep3 cfgEx upC3.topBlockedHr).1 =
      [⟨"technitium_dns_top_blocked_domain_hits", "Hits for TopBlockedDomains",
        ["server", "domain"], [⟨[.str "srv", .str "ads.example"], .gauge 3⟩]⟩] := by
  have h := c3_top_failure_isolation cfgEx upC3 0 1 rfl
    (Or.inr (Or.inl ⟨by decide, by decide, by decide⟩))
  exact ⟨h.1, (h.2.2.2.2.1 (by decide)).1, (h.2.2.2.2.1 (by decide)).2, rfl, rfl⟩

-- ---------------------------------------------------------------------------
-- Claims C6 and C7
-- ---------------------------------------------------------------------------

/-- C6: for each chart-derived family (the statement is generic in the
chart key, family name, help text and label name, covering the three
instantiations in `collect`): the family is not emitted when the chart
object is falsy (absent or empty) or when its `datasets` entry is falsy
(absent, null, or an empty list); when the chart has at least one dataset,
the samples pair the chart's `labels` array with the first dataset's
`data` array positionally via `zip`, producing exactly
`min len(labels) len(data)` samples — truncation to the shorter array,
never an error. -/
theorem c6_chart_pairing (cfg : Config) (ck mn hp ln : String) (sd : List (String × JVal))
    (chart : JVal) (hc : (lookupJ sd ck).getD (.obj []) = chart) :
    (pyTruthy chart = false → chartStep cfg ck mn hp ln (.obj sd) = .ok []) ∧
    (∀ ckvs, chart = .obj ckvs →
      pyTruthy ((lookupJ ckvs "datasets").getD .null) = false →
      chartStep cfg ck mn hp ln (.obj sd) = .ok []) ∧
    (∀ ckvs d0kvs ds' lbls dat, chart = .obj ckvs →
      lookupJ ckvs "datasets" = some (.arr (.obj d0kvs :: ds')) →
      (lookupJ ckvs "labels").getD (.arr []) = .arr lbls →
      (lookupJ d0kvs "data").getD (.arr []) = .arr dat →
      (∀ v ∈ dat, (pyFloatE v).isOk = true) →
      chartStep cfg ck mn hp ln (.obj sd) =
        .ok [⟨mn, hp, ["server", ln],
          (lbls.zip dat).map (fun p => ⟨[.str cfg.serverLabel, p.1], .gauge (floatOr0 p.2)⟩)⟩] ∧
      ((lbls.zip dat).map
        (fun p => (⟨[.str cfg.serverLabel, p.1], .gauge (floatOr0 p.2)⟩ : Sample))).length =
        min lbls.length dat.length) := by
  have h0 : pyGetD (.obj sd) ck (.obj []) = .ok chart := by
    rw [show pyGetD (.obj sd) ck (.obj []) = .ok ((lookupJ sd ck).getD (.obj [])) from rfl, hc]
  refine ⟨?_, ?_, ?_⟩
  · intro hfalse
    simp [chartStep, h0, hfalse]
  · intro ckvs hchart hds
    subst hchart
    by_cases ht : pyTruthy (.obj ckvs) = true
    · have h2 : pyGetD (.obj ckvs) "datasets" .null =
          .ok ((lookupJ ckvs "datasets").getD .null) := rfl
      simp [chartStep, h0, ht, h2, hds]
    · simp [chartStep, h0, Bool.eq_false_iff.mpr ht]
  · intro ckvs d0kvs ds' lbls dat hchart hds hlbl hdat hfl
    subst hchart
    have ht : pyTruthy (.obj ckvs) = true := by
      cases ckvs with
      | nil => exact absurd hds (by simp [lookupJ])
      | cons a t => rfl
    have h2 : pyGetD (.obj ckvs) "datasets" .null = .ok (.arr (.obj d0kvs :: ds')) := by
      show Except.ok ((lookupJ ckvs "datasets").getD .null) = _
      rw [hds]
      rfl
    have h3 : pyGetD (.obj ckvs) "labels" (.arr []) = .ok (.arr lbls) := by
      show Except.ok ((lookupJ ckvs "labels").getD (.arr [])) = _
      rw [hlbl]
    have h5 : pyGetD (.obj d0kvs) "data" (.arr []) = .ok (.arr dat) := by
      show Except.ok ((lookupJ d0kvs "data").getD (.arr [])) = _
      rw [hdat]
    have h6 : exceptMap (chartSampleE cfg) (lbls.zip dat) =
        .ok ((lbls.zip dat).map
          (fun p => ⟨[.str cfg.serverLabel, p.1], .gauge (floatOr0 p.2)⟩)) := by
      apply exceptMap_congr_ok
      intro p hp
      have hv : (pyFloatE p.2).isOk = true := hfl p.2 (List.of_mem_zip hp).2
      rw [show chartSampleE cfg p =
        (match pyFloatE p.2 with
         | .error e => .error e
         | .ok x => .ok ⟨[.str cfg.serverLabel, p.1], .gauge x⟩) from rfl]
      rw [pyFloatE_isOk hv]
    have ht2 : pyTruthy (.arr (.obj d0kvs :: ds')) = true := rfl
    refine ⟨?_, by simp [List.length_zip]⟩
    simp [chartStep, h0, ht, h2, ht2, h3, h5, h6, pySub0, pyIter]

/-- C6 witness: three labels zipped with two data points yield exactly two
samples. -/
theorem c6_witness :
    chartStep cfgEx "queryResponseChartData" "technitium_dns_response_type_total"
      "Response types in the current stats window" "type" (.obj chartDataEx) =
      .ok [⟨"technitium_dns_response_type_total",
        "Response types in the current stats window", ["server", "type"],
        [⟨[.str "srv", .str "a"], .gauge 1⟩, ⟨[.str "srv", .str "b"], .gauge 2⟩]⟩] ∧
    (2 : Nat) = min 3 2 := by
  have h := (c6_chart_pairing cfgEx "queryResponseChartData"
    "technitium_dns_response_type_total" "Response types in the current stats window"
    "type" chartDataEx
    (.obj [("labels", .arr [.str "a", .str "b", .str "c"]),
           ("datasets", .arr [.obj [("data", .arr [.num 1, .num 2])]])]) rfl).2.2
    [("labels", .arr [.str "a", .str "b", .str "c"]),
     ("datasets", .arr [.obj [("data", .arr [.num 1, .num 2])]])]
    [("data", .arr [.num 1, .num 2])] []
    [.str "a", .str "b", .str "c"] [.num 1, .num 2]
    rfl rfl rfl rfl (by decide)
  exact ⟨h.1.trans (by rfl), by decide⟩

theorem zoneSampleE_obj (cfg : Config) (kvz : List (String × JVal)) :
    zoneSampleE cfg (.obj kvz) = .ok (zoneObjSample cfg kvz) := rfl

/-- C7: for every returned zone list whose elements are dict-shaped, the
zone-info family is omitted when the list is empty; otherwise it contains
exactly one sample per zone, in order, each sample being `zoneObjSample`:
labels are the server label, the raw `name` (default `"unknown"`), the raw
`type` (default `"unknown"`), and the lowercased `str()` renderings of
`disabled` / `internal` (default `False`, rendered `"false"`); the info
value holds `str(soaSerial)` (default `"0"`) under the key `serial`. -/
theorem c7_zone_info_family (cfg : Config) (zd : JVal) (zl : List JVal)
    (hz : pyGetD zd "zones" (.arr []) = .ok (.arr zl))
    (hobj : ∀ z ∈ zl, ∃ kvz, z = .obj kvz) :
    (zl = [] → zonesBodyE cfg zd = .ok []) ∧
    (zl ≠ [] → zonesBodyE cfg zd = .ok
      [⟨"technitium_zone", "Zone detailed information",
        ["server", "zone", "type", "disabled", "internal"],
        zl.map (zoneSampleD cfg)⟩]) ∧
    (∀ kvz, zoneSampleD cfg (.obj kvz) = zoneObjSample cfg kvz) := by
  refine ⟨?_, ?_, fun kvz => rfl⟩
  · intro hnil
    subst hnil
    simp [zonesBodyE, hz, pyTruthy]
  · intro hne
    have ht : pyTruthy (.arr zl) = true := by
      cases zl with
      | nil => exact absurd rfl hne
      | cons a t => rfl
    have hmap : exceptMap (zoneSampleE cfg) zl = .ok (zl.map (zoneSampleD cfg)) := by
      apply exceptMap_congr_ok
      intro z hzm
      obtain ⟨kvz, hk⟩ := hobj z hzm
      subst hk
      rfl
    simp [zonesBodyE, hz, ht, pyIter, hmap]

/-- C7 witness: the spec's example zone yields exactly one sample with
labels `["srv", "example.com", "Primary", "false", "false"]` and info
value `{"serial": "5"}`. -/
theorem c7_witness :
    zonesBodyE cfgEx (.obj [("zones", .arr [.obj
      [("name", .str "example.com"), ("type", .str "Primary"),
       ("disabled", .bool false), ("internal", .bool false), ("soaSerial", .num 5)]])]) =
      .ok [⟨"technitium_zone", "Zone detailed information",
        ["server", "zone", "type", "disabled", "internal"],
        [⟨[.str "srv", .str "example.com", .str "Primary", .str "false", .str "false"],
          .info [("serial", "5")]⟩]⟩] := by
  have h := (c7_zone_info_family cfgEx
    (.obj [("zones", .arr [.obj
      [("name", .str "example.com"), ("type", .str "Primary"),
       ("disabled", .bool false), ("internal", .bool false), ("soaSerial", .num 5)]])])
    [.obj [("name", .str "example.com"), ("type", .str "Primary"),
       ("disabled", .bool false), ("internal", .bool false), ("soaSerial", .num 5)]]
    rfl (by intro z hzm; exact ⟨_, by simpa using hzm⟩)).2.1 (by simp)
  exact h.trans (by rfl)

-- ---------------------------------------------------------------------------
-- Grouping lemmas and claim C8
-- ---------------------------------------------------------------------------

theorem bumpT_eq_pos (t0 : PyKey) (n0 : Nat) (rest : List (PyKey × Nat)) (t : PyKey)
    (h : t0 = t) : bumpT ((t0, n0) :: rest) t = (t0, n0 + 1) :: rest := by
  simp [bumpT, h]

theorem bumpT_eq_neg (t0 : PyKey) (n0 : Nat) (rest : List (PyKey × Nat)) (t : PyKey)
    (h : t0 ≠ t) : bumpT ((t0, n0) :: rest) t = (t0, n0) :: bumpT rest t := by
  simp [bumpT, h]

theorem bumpS_eq_pos (s0 : PyKey) (m : List (PyKey × Nat))
    (rest : List (PyKey × List (PyKey × Nat))) (s t : PyKey) (h : s0 = s) :
    bumpS ((s0, m) :: rest) s t = (s0, bumpT m t) :: rest := by
  simp [bumpS, h]

theorem bumpS_eq_neg (s0 : PyKey) (m : List (PyKey × Nat))
    (rest : List (PyKey × List (PyKey × Nat))) (s t : PyKey) (h : s0 ≠ s) :
    bumpS ((s0, m) :: rest) s t = (s0, m) :: bumpS rest s t := by
  simp [bumpS, h]

theorem lookupT_mem : ∀ (m : List (PyKey × Nat)), (m.map Prod.fst).Nodup →
    ∀ t n, (t, n) ∈ m → lookupT m t = n := by
  intro m
  induction m with
  | nil => intro _ t n h; exact absurd h (by simp)
  | cons p rest ih =>
    obtain ⟨t0, n0⟩ := p
    intro hnd t n h
    rcases List.mem_cons.mp h with h1 | h1
    · injection h1 with ht hn
      subst ht
      subst hn
      simp [lookupT]
    · have hne : t0 ≠ t := by
        intro hcon
        subst hcon
        exact (List.nodup_cons.mp hnd).1 (List.mem_map.mpr ⟨(t0, n), h1, rfl⟩)
      rw [show lookupT ((t0, n0) :: rest) t = lookupT rest t from by simp [lookupT, hne]]
      exact ih (List.nodup_cons.mp hnd).2 t n h1

theorem bumpT_keys_mem : ∀ (m : List (PyKey × Nat)) (t x : PyKey),
    x ∈ (bumpT m t).map Prod.fst ↔ x ∈ m.map Prod.fst ∨ x = t := by
  intro m
  induction m with
  | nil =>
    intro t x
    constructor
    · intro h
      exact Or.inr (by simpa [bumpT] using h)
    · rintro (h | h)
      · exact absurd h (by simp)
      · simp [bumpT, h]
  | cons p rest ih =>
    obtain ⟨t0, n0⟩ := p
    intro t x
    by_cases h0 : t0 = t
    · rw [bumpT_eq_pos t0 n0 rest t h0]
      simp only [List.map_cons, List.mem_cons]
      constructor
      · rintro (h | h)
        · exact Or.inl (Or.inl h)
        · exact Or.inl (Or.inr h)
      · rintro ((h | h) | h)
        · exact Or.inl h
        · exact Or.inr h
        · exact Or.inl (h.trans h0.symm)
    · rw [bumpT_eq_neg t0 n0 rest t h0]
      simp only [List.map_cons, List.mem_cons]
      rw [ih t x]
      tauto

theorem bumpT_keys_nodup : ∀ (m : List (PyKey × Nat)) (t : PyKey),
    (m.map Prod.fst).Nodup → ((bumpT m t).map Prod.fst).Nodup := by
  intro m
  induction m with
  | nil => intro t _; simp [bumpT]
  | cons p rest ih =>
    obtain ⟨t0, n0⟩ := p
    intro t hnd
    rw [List.map_cons] at hnd
    obtain ⟨hnotin, hrest⟩ := List.nodup_cons.mp hnd
    by_cases h0 : t0 = t
    · rw [bumpT_eq_pos t0 n0 rest t h0]
      simpa using hnd
    · rw [bumpT_eq_neg t0 n0 rest t h0]
      simp only [List.map_cons]
      refine List.nodup_cons.mpr ⟨?_, ih t hrest⟩
      intro hcon
      rcases (bumpT_keys_mem rest t t0).mp hcon with h1 | h1
      · exact hnotin h1
      · exact h0 h1

theorem bumpT_lookup : ∀ (m : List (PyKey × Nat)) (t t' : PyKey),
    lookupT (bumpT m t) t' = lookupT m t' + (if t = t' then 1 else 0) := by
  intro m
  induction m with
  | nil =>
    intro t t'
    by_cases h : t = t' <;> simp [bumpT, lookupT, h]
  | cons p rest ih =>
    obtain ⟨t0, n0⟩ := p
    intro t t'
    by_cases h0 : t0 = t
    · subst h0
      rw [bumpT_eq_pos t0 n0 rest t0 rfl]
      by_cases h1 : t0 = t' <;> simp [lookupT, h1]
    · rw [bumpT_eq_neg t0 n0 rest t h0]
      by_cases h1 : t0 = t'
      · have h2 : t ≠ t' := fun hc => h0 (h1.trans hc.symm)
        simp [lookupT, h1, h2]
      · simp [lookupT, h1, ih t t']

theorem scopes_bumpS_mem : ∀ (counts : List (PyKey × List (PyKey × Nat))) (s t x : PyKey),
    x ∈ scopesOf (bumpS counts s t) ↔ x ∈ scopesOf counts ∨ x = s := by
  intro counts
  induction counts with
  | nil =>
    intro s t x
    constructor
    · intro h
      exact Or.inr (by simpa [bumpS, scopesOf] using h)
    · rintro (h | h)
      · exact absurd h (by simp [scopesOf])
      · simp [bumpS, scopesOf, h]
  | cons p rest ih =>
    obtain ⟨s0, m⟩ := p
    intro s t x
    by_cases h0 : s0 = s
    · rw [bumpS_eq_pos s0 m rest s t h0]
      simp only [scopesOf, List.map_cons, List.mem_cons]
      constructor
      · rintro (h | h)
        · exact Or.inl (Or.inl h)
        · exact Or.inl (Or.inr h)
      · rintro ((h | h) | h)
        · exact Or.inl h
        · exact Or.inr h
        · exact Or.inl (h.trans h0.symm)
    · rw [bumpS_eq_neg s0 m rest s t h0]
      simp only [scopesOf, List.map_cons, List.mem_cons]
      rw [show List.map Prod.fst (bumpS rest s t) = scopesOf (bumpS rest s t) from rfl]
      rw [ih s t x]
      rw [show List.map Prod.fst rest = scopesOf rest from rfl]
      tauto

theorem scopes_bumpS_nodup : ∀ (counts : List (PyKey × List (PyKey × Nat))) (s t : PyKey),
    (scopesOf counts).Nodup → (scopesOf (bumpS counts s t)).Nodup := by
  intro counts
  induction counts with
  | nil => intro s t _; simp [bumpS, scopesOf]
  | cons p rest ih =>
    obtain ⟨s0, m⟩ := p
    intro s t hnd
    rw [show scopesOf ((s0, m) :: rest) = s0 :: scopesOf rest from rfl] at hnd
    obtain ⟨hnotin, hrest⟩ := List.nodup_cons.mp hnd
    by_cases h0 : s0 = s
    · rw [bumpS_eq_pos s0 m rest s t h0]
      rw [show scopesOf ((s0, bumpT m t) :: rest) = s0 :: scopesOf rest from rfl]
      exact List.nodup_cons.mpr ⟨hnotin, hrest⟩
    · rw [bumpS_eq_neg s0 m rest s t h0]
      rw [show scopesOf ((s0, m) :: bumpS rest s t) = s0 :: scopesOf (bumpS rest s t) from rfl]
      refine List.nodup_cons.mpr ⟨?_, ih s t hrest⟩
      intro hcon
      rcases (scopes_bumpS_mem rest s t s0).mp hcon with h1 | h1
      · exact hnotin h1
      · exact h0 h1

theorem inner_bumpS_nodup : ∀ (counts : List (PyKey × List (PyKey × Nat))) (s t : PyKey),
    (∀ q ∈ counts, (q.2.map Prod.fst).Nodup) →
    ∀ q ∈ bumpS counts s t, (q.2.map Prod.fst).Nodup := by
  intro counts
  induction counts with
  | nil =>
    intro s t _ q hq
    have hq' : q = (s, [(t, 1)]) := by simpa [bumpS] using hq
    subst hq'
    simp
  | cons p rest ih =>
    obtain ⟨s0, m⟩ := p
    intro s t hall q hq
    by_cases h0 : s0 = s
    · rw [bumpS_eq_pos s0 m rest s t h0] at hq
      rcases List.mem_cons.mp hq with h1 | h1
      · subst h1
        exact bumpT_keys_nodup m t (hall (s0, m) (List.mem_cons_self _ _))
      · exact hall q (List.mem_cons_of_mem _ h1)
    · rw [bumpS_eq_neg s0 m rest s t h0] at hq
      rcases List.mem_cons.mp hq with h1 | h1
      · subst h1
        exact hall (s0, m) (List.mem_cons_self _ _)
      · exact ih s t (fun r hr => hall r (List.mem_cons_of_mem _ hr)) q h1

theorem bumpS_lookup2 : ∀ (counts : List (PyKey × List (PyKey × Nat))) (s t s' t' : PyKey),
    lookup2 (bumpS counts s t) s' t' =
      lookup2 counts s' t' + (if s = s' ∧ t = t' then 1 else 0) := by
  intro counts
  induction counts with
  | nil =>
    intro s t s' t'
    by_cases h1 : s = s'
    · subst h1
      by_cases h2 : t = t' <;> simp [bumpS, lookup2, lookupT, h2]
    · simp [bumpS, lookup2, lookupT, h1]
  | cons p rest ih =>
    obtain ⟨s0, m⟩ := p
    intro s t s' t'
    by_cases h0 : s0 = s
    · subst h0
      rw [bumpS_eq_pos s0 m rest s0 t rfl]
      by_cases h1 : s0 = s'
      · subst h1
        simp [lookup2, bumpT_lookup m t t']
      · simp [lookup2, h1]
    · rw [bumpS_eq_neg s0 m rest s t h0]
      by_cases h1 : s0 = s'
      · have h2 : ¬(s = s' ∧ t = t') := fun hc => h0 (h1.trans hc.1.symm)
        simp [lookup2, h1, h2]
      · simp [lookup2, h1, ih s t s' t']

theorem flatKeys_bumpS_mem : ∀ (counts : List (PyKey × List (PyKey × Nat))) (s t : PyKey)
    (q : PyKey × PyKey),
    q ∈ flatKeys (bumpS counts s t) ↔ q ∈ flatKeys counts ∨ q = (s, t) := by
  intro counts
  induction counts with
  | nil =>
    intro s t q
    constructor
    · intro h
      exact Or.inr (by simpa [bumpS, flatKeys] using h)
    · rintro (h | h)
      · exact absurd h (by simp [flatKeys])
      · simp [bumpS, flatKeys, h]
  | cons p rest ih =>
    obtain ⟨s0, m⟩ := p
    intro s t q
    by_cases h0 : s0 = s
    · subst h0
      rw [bumpS_eq_pos s0 m rest s0 t rfl]
      rw [show flatKeys ((s0, bumpT m t) :: rest) =
            (bumpT m t).map (fun tn => (s0, tn.1)) ++ flatKeys rest from rfl]
      rw [show flatKeys ((s0, m) :: rest) =
            m.map (fun tn => (s0, tn.1)) ++ flatKeys rest from rfl]
      simp only [List.mem_append, List.mem_map]
      constructor
      · rintro (⟨tn, htn, hq⟩ | h1)
        · rcases (bumpT_keys_mem m t tn.1).mp
              (List.mem_map.mpr ⟨tn, htn, rfl⟩) with h2 | h2
          · obtain ⟨tn', htn', he⟩ := List.mem_map.mp h2
            exact Or.inl (Or.inl ⟨tn', htn', by rw [← hq]; rw [he]⟩)
          · exact Or.inr (by rw [← hq]; rw [h2])
        · exact Or.inl (Or.inr h1)
      · rintro ((⟨tn, htn, hq⟩ | h1) | h1)
        · have hmem : tn.1 ∈ (bumpT m t).map Prod.fst :=
            (bumpT_keys_mem m t tn.1).mpr (Or.inl (List.mem_map.mpr ⟨tn, htn, rfl⟩))
          obtain ⟨tn', htn', he⟩ := List.mem_map.mp hmem
          exact Or.inl ⟨tn', htn', by rw [← hq]; rw [he]⟩
        · exact Or.inr h1
        · have hmem : t ∈ (bumpT m t).map Prod.fst :=
            (bumpT_keys_mem m t t).mpr (Or.inr rfl)
          obtain ⟨tn', htn', he⟩ := List.mem_map.mp hmem
          exact Or.inl ⟨tn', htn', by rw [h1]; rw [he]⟩
    · rw [bumpS_eq_neg s0 m rest s t h0]
      rw [show flatKeys ((s0, m) :: bumpS rest s t) =
            m.map (fun tn => (s0, tn.1)) ++ flatKeys (bumpS rest s t) from rfl]
      rw [show flatKeys ((s0, m) :: rest) =
            m.map (fun tn => (s0, tn.1)) ++ flatKeys rest from rfl]
      simp only [List.mem_append]
      rw [ih s t q]
      tauto

theorem mapCongrMem {α β : Type} : ∀ (l : List α) (f g : α → β),
    (∀ a ∈ l, f a = g a) → l.map f = l.map g := by
  intro l f g
  induction l with
  | nil => intro _; rfl
  | cons a l' ih =>
    intro h
    rw [List.map_cons, List.map_cons, h a (List.mem_cons_self _ _),
      ih (fun b hb => h b (List.mem_cons_of_mem _ hb))]

theorem countsWF_foldl : ∀ (ps : List (PyKey × PyKey)) (acc : List (PyKey × List (PyKey × Nat))),
    countsWF acc → countsWF (ps.foldl (fun acc p => bumpS acc p.1 p.2) acc) := by
  intro ps
  induction ps with
  | nil => intro acc h; exact h
  | cons p ps' ih =>
    obtain ⟨s0, t0⟩ := p
    intro acc h
    rw [List.foldl_cons]
    exact ih (bumpS acc s0 t0)
      ⟨scopes_bumpS_nodup acc s0 t0 h.1, inner_bumpS_nodup acc s0 t0 h.2⟩

theorem flatKeys_foldl_mem : ∀ (ps : List (PyKey × PyKey))
    (acc : List (PyKey × List (PyKey × Nat))) (q : PyKey × PyKey),
    q ∈ flatKeys (ps.foldl (fun acc p => bumpS acc p.1 p.2) acc) ↔
      q ∈ flatKeys acc ∨ q ∈ ps := by
  intro ps
  induction ps with
  | nil => intro acc q; simp
  | cons p ps' ih =>
    obtain ⟨s0, t0⟩ := p
    intro acc q
    rw [List.foldl_cons]
    rw [ih (bumpS acc s0 t0) q]
    rw [flatKeys_bumpS_mem acc s0 t0 q]
    simp only [List.mem_cons]
    constructor
    · rintro ((h | h) | h)
      · exact Or.inl h
      · exact Or.inr (Or.inl h)
      · exact Or.inr (Or.inr h)
    · rintro (h | (h | h))
      · exact Or.inl (Or.inl h)
      · exact Or.inl (Or.inr h)
      · exact Or.inr h

theorem lookup2_foldl : ∀ (ps : List (PyKey × PyKey))
    (acc : List (PyKey × List (PyKey × Nat))) (s t : PyKey),
    lookup2 (ps.foldl (fun acc p => bumpS acc p.1 p.2) acc) s t =
      lookup2 acc s t + pairCount ps (s, t) := by
  intro ps
  induction ps with
  | nil => intro acc s t; simp [pairCount]
  | cons p ps' ih =>
    obtain ⟨s0, t0⟩ := p
    intro acc s t
    rw [List.foldl_cons]
    rw [ih (bumpS acc s0 t0) s t]
    rw [bumpS_lookup2 acc s0 t0 s t]
    rw [show pairCount ((s0, t0) :: ps') (s, t) =
      (if (s0, t0) = (s, t) then 1 else 0) + pairCount ps' (s, t) from rfl]
    by_cases h1 : s0 = s <;> by_cases h2 : t0 = t <;>
      simp [h1, h2, Prod.mk.injEq] <;> omega

theorem flatKeys_scope : ∀ (counts : List (PyKey × List (PyKey × Nat))) (q : PyKey × PyKey),
    q ∈ flatKeys counts → q.1 ∈ scopesOf counts := by
  intro counts
  induction counts with
  | nil => intro q h; exact absurd h (by simp [flatKeys])
  | cons p rest ih =>
    obtain ⟨s, m⟩ := p
    intro q h
    rw [show flatKeys ((s, m) :: rest) =
      m.map (fun tn => (s, tn.1)) ++ flatKeys rest from rfl] at h
    rw [show scopesOf ((s, m) :: rest) = s :: scopesOf rest from rfl]
    rcases List.mem_append.mp h with h1 | h1
    · obtain ⟨tn, _, he⟩ := List.mem_map.mp h1
      subst he
      exact List.mem_cons_self _ _
    · exact List.mem_cons_of_mem _ (ih q h1)

theorem flatKeys_nodup : ∀ (counts : List (PyKey × List (PyKey × Nat))),
    countsWF counts → (flatKeys counts).Nodup := by
  intro counts
  induction counts with
  | nil => intro _; simp [flatKeys]
  | cons p rest ih =>
    obtain ⟨s, m⟩ := p
    intro hwf
    obtain ⟨hsc, hin⟩ := hwf
    rw [show scopesOf ((s, m) :: rest) = s :: scopesOf rest from rfl] at hsc
    obtain ⟨hsnotin, hscrest⟩ := List.nodup_cons.mp hsc
    rw [show flatKeys ((s, m) :: rest) =
      m.map (fun tn => (s, tn.1)) ++ flatKeys rest from rfl]
    refine List.nodup_append.mpr ⟨?_, ?_, ?_⟩
    · have hm : (m.map Prod.fst).Nodup := hin (s, m) (List.mem_cons_self _ _)
      have hinj : Function.Injective (fun t : PyKey => ((s, t) : PyKey × PyKey)) := by
        intro a b hab
        have hab' : ((s, a) : PyKey × PyKey) = (s, b) := hab
        injection hab' with h1 h2
      have hmapeq : m.map (fun tn => (s, tn.1)) =
          (m.map Prod.fst).map (fun t : PyKey => ((s, t) : PyKey × PyKey)) :=
        (List.map_map _ _ _).symm
      rw [hmapeq]
      exact hm.map hinj
    · exact ih ⟨hscrest, fun q hq => hin q (List.mem_cons_of_mem _ hq)⟩
    · intro q hq1 hq2
      obtain ⟨tn, _, he⟩ := List.mem_map.mp hq1
      subst he
      exact hsnotin (flatKeys_scope rest (s, tn.1) hq2)

theorem dhcpSamplesT_map (cfg : Config) (s : PyKey) : ∀ (m : List (PyKey × Nat)),
    dhcpSamplesT cfg s m =
      m.map (fun tn => ⟨[.str cfg.serverLabel, keyVal s, keyVal tn.1],
        .gauge (tn.2 : ℚ)⟩) := by
  intro m
  induction m with
  | nil => rfl
  | cons tn rest ih =>
    obtain ⟨t, n⟩ := tn
    rw [show dhcpSamplesT cfg s ((t, n) :: rest) =
      ⟨[.str cfg.serverLabel, keyVal s, keyVal t], .gauge (n : ℚ)⟩ ::
        dhcpSamplesT cfg s rest from rfl]
    rw [List.map_cons, ih]

theorem dhcpSamplesS_lookup (cfg : Config) : ∀ (counts : List (PyKey × List (PyKey × Nat))),
    countsWF counts →
    dhcpSamplesS cfg counts = (flatKeys counts).map
      (fun q => ⟨[.str cfg.serverLabel, keyVal q.1, keyVal q.2],
        .gauge ((lookup2 counts q.1 q.2 : Nat) : ℚ)⟩) := by
  intro counts
  induction counts with
  | nil => intro _; rfl
  | cons p rest ih =>
    obtain ⟨s, m⟩ := p
    intro hwf
    obtain ⟨hsc, hin⟩ := hwf
    rw [show scopesOf ((s, m) :: rest) = s :: scopesOf rest from rfl] at hsc
    obtain ⟨hsnotin, hscrest⟩ := List.nodup_cons.mp hsc
    have hm : (m.map Prod.fst).Nodup := hin (s, m) (List.mem_cons_self _ _)
    rw [show dhcpSamplesS cfg ((s, m) :: rest) =
      dhcpSamplesT cfg s m ++ dhcpSamplesS cfg rest from rfl]
    rw [show flatKeys ((s, m) :: rest) =
      m.map (fun tn => (s, tn.1)) ++ flatKeys rest from rfl]
    rw [List.map_append]
    have hfirst : dhcpSamplesT cfg s m =
        (m.map (fun tn => (s, tn.1))).map
          (fun q => ⟨[.str cfg.serverLabel, keyVal q.1, keyVal q.2],
            .gauge ((lookup2 ((s, m) :: rest) q.1 q.2 : Nat) : ℚ)⟩) := by
      rw [dhcpSamplesT_map cfg s m, List.map_map]
      refine mapCongrMem m _ _ ?_
      intro tn htn
      have h1 : lookup2 ((s, m) :: rest) s tn.1 = lookupT m tn.1 := by
        simp [lookup2]
      have h2 : lookupT m tn.1 = tn.2 := lookupT_mem m hm tn.1 tn.2 (by
        rw [show ((tn.1, tn.2) : PyKey × Nat) = tn from rfl]
        exact htn)
      show (⟨[.str cfg.serverLabel, keyVal s, keyVal tn.1],
          .gauge ((tn.2 : Nat) : ℚ)⟩ : Sample) =
        ⟨[.str cfg.serverLabel, keyVal s, keyVal tn.1],
          .gauge ((lookup2 ((s, m) :: rest) s tn.1 : Nat) : ℚ)⟩
      rw [h1, h2]
    have hsecond : dhcpSamplesS cfg rest =
        (flatKeys rest).map
          (fun q => ⟨[.str cfg.serverLabel, keyVal q.1, keyVal q.2],
            .gauge ((lookup2 ((s, m) :: rest) q.1 q.2 : Nat) : ℚ)⟩) := by
      rw [ih ⟨hscrest, fun q hq => hin q (List.mem_cons_of_mem _ hq)⟩]
      refine mapCongrMem _ _ _ ?_
      intro q hq
      have hne : s ≠ q.1 := by
        intro hc
        exact hsnotin (hc ▸ flatKeys_scope rest q hq)
      have h1 : lookup2 ((s, m) :: rest) q.1 q.2 = lookup2 rest q.1 q.2 := by
        simp [lookup2, hne]
      rw [h1]
    rw [hfirst, hsecond]

/-- C8: for every returned lease list, the DHCP family is omitted when the
list is empty; otherwise exactly one family is emitted, whose samples are
exactly one per distinct `(scope, type)` pair occurring in the lease list
(first-occurrence order, no duplicates), each valued by the number of
leases in that group, the scope and type defaults coming from the
per-lease key extraction. -/
theorem c8_dhcp_grouping (cfg : Config) (dd : JVal) (ll : List JVal)
    (ps : List (PyKey × PyKey))
    (hl : pyGetD dd "leases" (.arr []) = .ok (.arr ll))
    (hp : exceptMap leaseKeysE ll = .ok ps) :
    (ll = [] → dhcpBodyE cfg dd = .ok []) ∧
    (ll ≠ [] → dhcpBodyE cfg dd = .ok
      [⟨"technitium_dhcp_leases_total", "Number of DHCP leases by scope and type",
        ["server", "scope", "type"], dhcpSamplesS cfg (groupCounts ps)⟩]) ∧
    (flatKeys (groupCounts ps)).Nodup ∧
    (∀ q : PyKey × PyKey, q ∈ flatKeys (groupCounts ps) ↔ q ∈ ps) ∧
    dhcpSamplesS cfg (groupCounts ps) =
      (flatKeys (groupCounts ps)).map
        (fun q => ⟨[.str cfg.serverLabel, keyVal q.1, keyVal q.2],
          .gauge ((pairCount ps q : Nat) : ℚ)⟩) := by
  have hwf : countsWF (groupCounts ps) :=
    countsWF_foldl ps [] ⟨List.nodup_nil, fun p hp => absurd hp (List.not_mem_nil p)⟩
  have hlk : ∀ q : PyKey × PyKey, lookup2 (groupCounts ps) q.1 q.2 = pairCount ps q := by
    intro q
    rw [show groupCounts ps = ps.foldl (fun acc p => bumpS acc p.1 p.2) [] from rfl]
    rw [lookup2_foldl ps [] q.1 q.2]
    rw [show lookup2 [] q.1 q.2 = 0 from rfl]
    rw [show ((q.1, q.2) : PyKey × PyKey) = q from rfl]
    exact Nat.zero_add _
  refine ⟨?_, ?_, flatKeys_nodup (groupCounts ps) hwf, ?_, ?_⟩
  · intro hnil
    subst hnil
    simp [dhcpBodyE, hl, pyTruthy]
  · intro hne
    have ht : pyTruthy (.arr ll) = true := by
      cases ll with
      | nil => exact absurd rfl hne
      | cons a t => rfl
    simp [dhcpBodyE, hl, ht, pyIter, hp]
  · intro q
    rw [show groupCounts ps = ps.foldl (fun acc p => bumpS acc p.1 p.2) [] from rfl]
    rw [flatKeys_foldl_mem ps [] q]
    simp [flatKeys]
  · rw [dhcpSamplesS_lookup cfg (groupCounts ps) hwf]
    refine mapCongrMem _ _ _ ?_
    intro q hq
    rw [hlk q]

/-- C8 witness: the spec's lease list with scopes/types
`(A, Dynamic), (A, Dynamic), (A, Reserved)` yields exactly two samples,
`(A, Dynamic) = 2` and `(A, Reserved) = 1`. -/
theorem c8_witness :
    dhcpBodyE cfgEx (.obj [("leases", .arr
      [.obj [("scope", .str "A"), ("type", .str "Dynamic")],
       .obj [("scope", .str "A"), ("type", .str "Dynamic")],
       .obj [("scope", .str "A"), ("type", .str "Reserved")]])]) =
      .ok [⟨"technitium_dhcp_leases_total", "Number of DHCP leases by scope and type",
        ["server", "scope", "type"],
        [⟨[.str "srv", .str "A", .str "Dynamic"], .gauge ((2 : Nat) : ℚ)⟩,
         ⟨[.str "srv", .str "A", .str "Reserved"], .gauge ((1 : Nat) : ℚ)⟩]⟩] := by
  have h := (c8_dhcp_grouping cfgEx
    (.obj [("leases", .arr
      [.obj [("scope", .str "A"), ("type", .str "Dynamic")],
       .obj [("scope", .str "A"), ("type", .str "Dynamic")],
       .obj [("scope", .str "A"), ("type", .str "Reserved")]])])
    [.obj [("scope", .str "A"), ("type", .str "Dynamic")],
     .obj [("scope", .str "A"), ("type", .str "Dynamic")],
     .obj [("scope", .str "A"), ("type", .str "Reserved")]]
    [(.str "A", .str "Dynamic"), (.str "A", .str "Dynamic"), (.str "A", .str "Reserved")]
    rfl rfl).2.1 (by simp)
  exact h.trans (by rfl)
